import Mathlib

/-!
Verification development for the SNeq diamond-difference SN transport solver
(calculator.py). The Python code is shallowly embedded: numpy float arrays
become total functions into the rationals, in-place array writes become
functional updates, and the python for-loops become the fuel-indexed loop
combinator loopN below. Square roots (np.sqrt) are kept exact by carrying the
pre-sqrt sums in the model and applying Real.sqrt only at the interface; the
comparisons "np.sqrt s > eps" performed inside solve are modelled by the
boolean sqrtGtQ, proved equivalent to the real-number comparison in
sqrtGtQ_eq_true_iff.
-/

namespace SNeq

/-- Ascending for-loop: loopN step n0 r a runs step at indices n0, n0+1, ...,
n0+r-1, threading the state a. Python loops "for i in range(n)" are loopN
from 0 with fuel n; "for i in reversed(range(n))" is loopN from 0 with the
body applied at index n-1-t. -/
def loopN {α : Type} (step : ℕ → α → α) : ℕ → ℕ → α → α
  | _, 0, a => a
  | n0, r+1, a => loopN step (n0+1) r (step n0 a)

/-- Accumulation loop over range n, as the python "acc += f(i)" idiom. -/
def sumRange (n : ℕ) (f : ℕ → ℚ) : ℚ := (List.range n).foldl (fun a i => a + f i) 0

/-- Boolean deciding whether np.sqrt x exceeds e, for a nonnegative radicand x;
this is how the model performs the float comparisons "rms > eps" appearing in
the solve loops without leaving the rationals. -/
def sqrtGtQ (x e : ℚ) : Bool := if 0 ≤ e then decide (e^2 < x) else true

/-! ## Data model for the 1-D solver

Arrays are total functions; Arr2 plays the role of the (nx, groups) numpy
arrays (scalar flux, fission source, scatter source) and Psi1 the
(nx+1, N, groups) angular-flux array mesh.psi. -/

abbrev Arr2 : Type := ℕ → ℕ → ℚ

abbrev Psi1 : Type := ℕ → ℕ → ℕ → ℚ

def upd2 (f : Arr2) (a b : ℕ) (v : ℚ) : Arr2 :=
  fun x y => if x = a ∧ y = b then v else f x y

def upd3 (f : Psi1) (a b c : ℕ) (v : ℚ) : Psi1 :=
  fun x y z => if x = a ∧ y = b ∧ z = c then v else f x y z

/-- Group-broadcast write: models the numpy assignments psi[i, n] = v in the
forward sweep (transport_sweep lines 202 and 209), where the group index is
omitted and the scalar v is broadcast into every group slot of that face and
direction. -/
def updAllG (f : Psi1) (a b : ℕ) (v : ℚ) : Psi1 :=
  fun x y z => if x = a ∧ y = b then v else f x y z

/-- One spatial cell of the 1-D mesh: width dx, per-group removal
cross-section sigma_tr, and the fixed source. -/
structure Node1 where
  dx : ℚ
  sigma_tr : ℕ → ℚ
  source : ℚ

/-- Static problem data consumed by the 1-D calculator: the mesh geometry and
material data, the quadrature, and the two mesh source-computation methods.
Mesh and Quadrature are external collaborators (spec section 6), so their
methods appear here as function-valued fields. calcFS and calcSS are
Modelled from the spec: Mesh.calculate_fission_source and
Mesh.calculate_scatter_source are not part of calculator.py; per the spec
they compute per-cell-per-group source arrays from the current scalar flux
and material data. -/
structure Cfg1 where
  nx : ℕ
  groups : ℕ
  nodes : ℕ → Node1
  N : ℕ
  N2 : ℕ
  mus : ℕ → ℚ
  weights : ℕ → ℚ
  reflect_angle : ℕ → ℕ
  calcFS : Arr2 → Arr2
  calcSS : Arr2 → Arr2

/-- Incoming-boundary-flux accessor: a closure reading the live angular-flux
array, as produced by _set_bcs. -/
abbrev BAcc1 : Type := Psi1 → ℕ → ℕ → ℚ

/-- Modelled from the spec: the enumerated label set BOUNDARY_CONDITIONS
imported from constants.py (that module is not part of calculator.py); per
the spec the valid labels are vacuum, reflective and periodic. -/
def BOUNDARY_CONDITIONS : List String := ["vacuum", "reflective", "periodic"]

/-- Construction-time configuration failure. The python code raises
AssertionError for an unknown label (line 35) and TypeError for a periodic
mismatch (line 44); the spec groups both under ConfigurationError, which is
how they are modelled here. -/
inductive ConfigurationError where
  | unknownBC (bc : String)
  | periodicMismatch

/-- The 1-D branch of DiamondDifferenceCalculator._set_bcs (lines 32-106):
validate the two labels, reject a one-sided periodic pair, and return the
west and east incoming-flux accessors. -/
def setBCs1D (cfg : Cfg1) (bcs : String × String) :
    Except ConfigurationError (BAcc1 × BAcc1) :=
  if ¬ BOUNDARY_CONDITIONS.contains bcs.1 then .error (.unknownBC bcs.1)
  else if ¬ BOUNDARY_CONDITIONS.contains bcs.2 then .error (.unknownBC bcs.2)
  else if (bcs.1 = "periodic" ∨ bcs.2 = "periodic") ∧ bcs.1 ≠ bcs.2 then
    .error .periodicMismatch
  else
    let gw : BAcc1 :=
      if bcs.1 = "periodic" then fun ψ n g => ψ cfg.nx n g
      else if bcs.1 = "reflective" then fun ψ n g => ψ 0 (cfg.reflect_angle n) g
      else fun _ _ _ => 0
    let ge : BAcc1 :=
      if bcs.2 = "periodic" then fun ψ n g => ψ 0 n g
      else if bcs.2 = "reflective" then fun ψ n g => ψ cfg.nx (cfg.reflect_angle n) g
      else fun _ _ _ => 0
    .ok (gw, ge)

/-- Mutable mesh state: the scalar-flux array mesh.flux and the angular-flux
array mesh.psi. -/
structure St1 where
  flux : Arr2
  psi : Psi1

/-- DiamondDifferenceCalculator1D._get_source (lines 182-187): fixed source
plus half the scatter source, plus half the fission source over k when k is
truthy (python "if k:"). The fission array is passed in already unwrapped;
when the stored fission source is the no-fission sentinel the python code
would raise on indexing it, a path no claim exercises. -/
def getSource1d (cfg : Cfg1) (ssrc fsA : Arr2) (i g : ℕ) (k : Option ℚ) : ℚ :=
  let s := (cfg.nodes i).source + (1/2) * ssrc i g
  match k with
  | none => s
  | some kv => if kv = 0 then s else s + (1/2) * fsA i g / kv

/-- One cell of the forward (left to right) sweep, transport_sweep lines
203-210: diamond-difference recurrence followed by the group-broadcast store
psi[i+1, n] = psi_out. The pair threads (psi array, carried psi_in). -/
def fwdCellStep (cfg : Cfg1) (ssrc fsA : Arr2) (k : ℚ) (g n : ℕ) (mu : ℚ)
    (i : ℕ) (p : Psi1 × ℚ) : Psi1 × ℚ :=
  let node := cfg.nodes i
  let q := getSource1d cfg ssrc fsA i g (some k)
  let ψout := (p.2 * (2*mu - node.dx * node.sigma_tr g) + 2 * node.dx * q) /
      (2*mu + node.dx * node.sigma_tr g)
  (updAllG p.1 (i+1) n ψout, ψout)

/-- Forward sweep for one direction n, transport_sweep lines 199-210: read the
west accessor, broadcast-store it at face 0, then run the cells left to
right. -/
def fwdOneDir (cfg : Cfg1) (ssrc fsA : Arr2) (k : ℚ) (gW : BAcc1) (g n : ℕ)
    (ψ : Psi1) : Psi1 :=
  let mu := |cfg.mus n|
  let ψin := gW ψ n g
  (loopN (fwdCellStep cfg ssrc fsA k g n mu) 0 cfg.nx (updAllG ψ 0 n ψin, ψin)).1

/-- One cell of the backward (right to left) sweep, transport_sweep lines
218-225. The cell geometry and cross-section come from nodes[nx-1-i] while
the source is _get_source(i, g, k), exactly as in the python (line 220 uses
the loop index i, not the mirrored index). -/
def bwdCellStep (cfg : Cfg1) (ssrc fsA : Arr2) (k : ℚ) (g n : ℕ) (mu : ℚ)
    (i : ℕ) (p : Psi1 × ℚ) : Psi1 × ℚ :=
  let node := cfg.nodes (cfg.nx - 1 - i)
  let q := getSource1d cfg ssrc fsA i g (some k)
  let ψout := (p.2 * (2*mu - node.dx * node.sigma_tr g) + 2 * node.dx * q) /
      (2*mu + node.dx * node.sigma_tr g)
  (upd3 p.1 (cfg.nx - 1 - i) n g ψout, ψout)

/-- Backward sweep for one direction n, transport_sweep lines 214-228: seed
from the east accessor at face nx, run the cells right to left, then
reconnect the boundary flux, psi[0, n, g] = psi_out (line 228). -/
def bwdOneDir (cfg : Cfg1) (ssrc fsA : Arr2) (k : ℚ) (gE : BAcc1) (g n : ℕ)
    (ψ : Psi1) : Psi1 :=
  let mu := |cfg.mus n|
  let ψin := gE ψ n g
  let p := loopN (bwdCellStep cfg ssrc fsA k g n mu) 0 cfg.nx (upd3 ψ cfg.nx n g ψin, ψin)
  upd3 p.1 0 n g p.2

/-- The forward hemisphere, directions 0 to N2-1. -/
def fwdPass (cfg : Cfg1) (ssrc fsA : Arr2) (k : ℚ) (gW : BAcc1) (g : ℕ)
    (ψ : Psi1) : Psi1 :=
  loopN (fun n ψ => fwdOneDir cfg ssrc fsA k gW g n ψ) 0 cfg.N2 ψ

/-- The backward hemisphere, directions N2 to N-1. -/
def bwdPass (cfg : Cfg1) (ssrc fsA : Arr2) (k : ℚ) (gE : BAcc1) (g : ℕ)
    (ψ : Psi1) : Psi1 :=
  loopN (fun n ψ => bwdOneDir cfg ssrc fsA k gE g n ψ) cfg.N2 (cfg.N - cfg.N2) ψ

/-- Scalar-flux cell value, transport_sweep lines 233-240: quadrature-weighted
average of the two bracketing face fluxes summed over all directions. -/
def fluxRow (cfg : Cfg1) (ψ : Psi1) (i g : ℕ) : ℚ :=
  sumRange cfg.N (fun n => cfg.weights n * (ψ (i+1) n g + ψ i n g) / 2)

def fluxUpdate1 (cfg : Cfg1) (g : ℕ) (st : St1) : St1 :=
  { st with flux := loopN (fun i fl => upd2 fl i g (fluxRow cfg st.psi i g)) 0 cfg.nx st.flux }

/-- One iteration of the group loop of transport_sweep (lines 197-240):
forward hemisphere, backward hemisphere, then the scalar-flux update. -/
def groupBody1 (cfg : Cfg1) (ssrc fsA : Arr2) (k : ℚ) (gW gE : BAcc1) (g : ℕ)
    (st : St1) : St1 :=
  fluxUpdate1 cfg g { st with psi := bwdPass cfg ssrc fsA k gE g (fwdPass cfg ssrc fsA k gW g st.psi) }

/-- The first t iterations of the group loop. -/
def sweepGroupsUpto (cfg : Cfg1) (ssrc fsA : Arr2) (k : ℚ) (gW gE : BAcc1)
    (t : ℕ) (st : St1) : St1 :=
  loopN (groupBody1 cfg ssrc fsA k gW gE) 0 t st

/-- Pointwise term of the relative-difference accumulators, transport_sweep
lines 254-255 and 267-268: accumulate only where the values differ. -/
def relDiffSq (a b : ℚ) : ℚ := if a ≠ b then ((a - b) / a)^2 else 0

/-- Pre-sqrt accumulator of the 1-D relative RMS difference, the double loop
of transport_sweep lines 249-255 and 262-268, with a as the new array. -/
def l2sum1d (nx groups : ℕ) (newA oldA : Arr2) : ℚ :=
  sumRange nx (fun i => sumRange groups (fun g => relDiffSq (newA i g) (oldA i g)))

/-- Result of one 1-D transport sweep: the recomputed fission source (none is
the python sentinel 0 returned when the stored fission source is inactive)
and the two pre-sqrt difference sums; the python return values rms_fs and
rms_flux are np.sqrt(fsSum/nx) and np.sqrt(fluxSum/nx). -/
structure SweepOut1 where
  fs : Option Arr2
  fsSum : ℚ
  fluxSum : ℚ
  st : St1

/-- DiamondDifferenceCalculator1D.transport_sweep (lines 189-272). -/
def transport_sweep1d (cfg : Cfg1) (gW gE : BAcc1) (k : ℚ) (fsrc : Option Arr2)
    (ssrc : Arr2) (st : St1) : SweepOut1 :=
  let old_flux := st.flux
  let fsA : Arr2 := fsrc.getD (fun _ _ => 0)
  let st1 := sweepGroupsUpto cfg ssrc fsA k gW gE cfg.groups st
  let fsPair : Option Arr2 × ℚ :=
    match fsrc with
    | some fs0 =>
      let fs1 := cfg.calcFS st1.flux
      (some fs1, l2sum1d cfg.nx cfg.groups fs1 fs0)
    | none => (none, 0)
  { fs := fsPair.1, fsSum := fsPair.2,
    fluxSum := l2sum1d cfg.nx cfg.groups st1.flux old_flux, st := st1 }

/-- Python return value of a transport_sweep call: the 1-D solver returns the
3-tuple (fission source or sentinel, rms_fs, rms_flux) while the 2-D solver
returns a bare float; a sum type embeds the dynamically typed return. -/
inductive PyRet where
  | triple (fs : Option Arr2) (rms_fs rms_flux : ℝ) : PyRet
  | single (rms_flux : ℝ) : PyRet

def PyRet.isTriple : PyRet → Bool
  | .triple _ _ _ => true
  | .single _ => false

/-- The np.sqrt(sum/nx) normalization applied to both 1-D difference sums
(transport_sweep lines 256 and 269). -/
noncomputable def rms1d (cfg : Cfg1) (s : ℚ) : ℝ := Real.sqrt ((s : ℝ) / (cfg.nx : ℝ))

/-- The value returned by the python 1-D transport_sweep (line 272):
(fs_new, rms_fs, rms_flux). -/
noncomputable def sweep1dPyRet (cfg : Cfg1) (gW gE : BAcc1) (k : ℚ)
    (fsrc : Option Arr2) (ssrc : Arr2) (st : St1) : PyRet :=
  let out := transport_sweep1d cfg gW gE k fsrc ssrc st
  .triple out.fs (rms1d cfg out.fsSum) (rms1d cfg out.fluxSum)

/-- Calculator state across solve iterations: the mesh state plus the stored
fission source (none is the inactive sentinel), the stored scatter source and
the eigenvalue estimate k. -/
structure Solver1 where
  st : St1
  fsrc : Option Arr2
  ssrc : Arr2
  k : ℚ

/-- numpy array.sum() over an (nx, groups) array. -/
def arrSum (cfg : Cfg1) (a : Arr2) : ℚ :=
  sumRange cfg.nx (fun i => sumRange cfg.groups (fun g => a i g))

/-- Constructor DiamondDifferenceCalculator1D.__init__ (lines 176-179 and
24-30): store k, compute the fission and scatter sources from the mesh, and
resolve the boundary-condition accessors; any _set_bcs failure aborts
construction. The initial fission source fsrc0 stands for the value of
mesh.calculate_fission_source() at construction (array, or none for a
non-fissioning mesh). -/
def mkCalculator1D (cfg : Cfg1) (bcs : String × String) (kguess : ℚ) (st : St1)
    (fsrc0 : Option Arr2) : Except ConfigurationError (Solver1 × BAcc1 × BAcc1) :=
  match setBCs1D cfg bcs with
  | .error e => .error e
  | .ok (gW, gE) =>
    .ok ({ st := st, fsrc := fsrc0, ssrc := cfg.calcSS st.flux, k := kguess }, gW, gE)

/-- The inner flux loop of DiamondDifferenceCalculator1D.solve (lines
295-322, accelerator absent): sweep, count, abort with the failure status
once inner_count reaches maxiter (checked right after the sweep, lines
306-310), otherwise re-test the guard fluxdiff > eps. The fuel argument r
starts at maxiter, so the branch r = 0 or 1 is the python abort after the
maxiter-th sweep; the initialization fluxdiff = eps + 1 makes the first guard
test always true, so the loop body runs unconditionally first. The first
component is none on the non-convergence abort, and carries the last sweep
result (fs, fsdiff) on convergence. -/
def innerLoop (cfg : Cfg1) (gW gE : BAcc1) (k eps : ℚ) :
    ℕ → Solver1 → Option (Option Arr2 × ℚ) × Solver1
  | 0, s =>
    (none, { s with st := (transport_sweep1d cfg gW gE k s.fsrc s.ssrc s.st).st })
  | 1, s =>
    (none, { s with st := (transport_sweep1d cfg gW gE k s.fsrc s.ssrc s.st).st })
  | r+2, s =>
    let out := transport_sweep1d cfg gW gE k s.fsrc s.ssrc s.st
    let s' := { s with st := out.st }
    if sqrtGtQ (out.fluxSum / cfg.nx) eps then innerLoop cfg gW gE k eps (r+1) s'
    else (some (out.fs, out.fsSum), s')

/-- The outer-iteration update of solve (lines 328-340): recompute the
scatter source, and when the fission source is active update the eigenvalue,
k_new = k * sum(fs_new) / sum(fs_old), kdiff = abs(k_new - k) / k_new, and
replace the stored fission source and k. The two booleans are the loop-guard
comparisons fsdiff > eps and kdiff > eps re-tested at the top of the while
loop (line 292); with the fission source inactive both were zeroed at lines
297-299, leaving 0 > eps. -/
def outerUpdate (cfg : Cfg1) (eps : ℚ) (s' : Solver1) (fsN : Option Arr2)
    (fsSum : ℚ) : Solver1 × Bool × Bool :=
  let ss := cfg.calcSS s'.st.flux
  match s'.fsrc, fsN with
  | some fs0, some fs1 =>
    let knew := s'.k * arrSum cfg fs1 / arrSum cfg fs0
    let kd := |knew - s'.k| / knew
    ({ st := s'.st, fsrc := some fs1, ssrc := ss, k := knew },
      sqrtGtQ (fsSum / cfg.nx) eps, decide (eps < kd))
  | _, _ => ({ s' with ssrc := ss }, decide (eps < 0), decide (eps < 0))

/-- Outcome of one outer-loop body: the inner loop aborted (solve returns
False immediately), or the update ran producing the new state and the two
re-tested guards. -/
inductive OuterStep where
  | aborted (s' : Solver1)
  | updated (s2 : Solver1) (g1 g2 : Bool)

def outerBody (cfg : Cfg1) (gW gE : BAcc1) (eps : ℚ) (maxiter : ℕ)
    (s : Solver1) : OuterStep :=
  match innerLoop cfg gW gE s.k eps maxiter s with
  | (none, s') => .aborted s'
  | (some (fsN, fsSum), s') =>
    let u := outerUpdate cfg eps s' fsN fsSum
    .updated u.1 u.2.1 u.2.2

/-- The outer loop of solve (lines 288-351): run the body, abort with False
when outer_count reaches maxiter (fuel 0 or 1, the check at lines 343-347
happening right after the body), otherwise re-test fsdiff > eps or
kdiff > eps and either loop or return True. The initializations
fsdiff = kdiff = eps + 1 make the first guard test always true. -/
def outerLoop (cfg : Cfg1) (gW gE : BAcc1) (eps : ℚ) (maxiter : ℕ) :
    ℕ → Solver1 → Bool × Solver1
  | 0, s =>
    match outerBody cfg gW gE eps maxiter s with
    | .aborted s' => (false, s')
    | .updated s2 _ _ => (false, s2)
  | 1, s =>
    match outerBody cfg gW gE eps maxiter s with
    | .aborted s' => (false, s')
    | .updated s2 _ _ => (false, s2)
  | r+2, s =>
    match outerBody cfg gW gE eps maxiter s with
    | .aborted s' => (false, s')
    | .updated s2 g1 g2 =>
      if g1 || g2 then outerLoop cfg gW gE eps maxiter (r+1) s2 else (true, s2)

/-- DiamondDifferenceCalculator1D.solve (lines 275-351): the boolean result
is the python return value (True converged, False aborted), the state is the
calculator and mesh state left behind. -/
def solve1d (cfg : Cfg1) (gW gE : BAcc1) (eps : ℚ) (maxiter : ℕ)
    (s : Solver1) : Bool × Solver1 :=
  outerLoop cfg gW gE eps maxiter maxiter s

/-- j-fold application of the sweep to the mesh state (fission and scatter
sources and k held fixed, as during the inner loop). -/
def sweepStIter (cfg : Cfg1) (gW gE : BAcc1) (k : ℚ) (fsrc : Option Arr2)
    (ssrc : Arr2) : ℕ → St1 → St1
  | 0, st => st
  | j+1, st => sweepStIter cfg gW gE k fsrc ssrc j (transport_sweep1d cfg gW gE k fsrc ssrc st).st

/-! ## Data model for the 2-D solver

Arr3 plays the role of the (nx, ny, groups) arrays (scalar flux, scatter
source) indexed (i, j, g); Psi2 is the angular-flux array mesh.psi indexed
(x-face, j, n, g). -/

abbrev Arr3 : Type := ℕ → ℕ → ℕ → ℚ

abbrev Psi2 : Type := ℕ → ℕ → ℕ → ℕ → ℚ

def upd4 (ψ : Psi2) (a b c d : ℕ) (v : ℚ) : Psi2 :=
  fun w x y z => if w = a ∧ x = b ∧ y = c ∧ z = d then v else ψ w x y z

/-- Models the slice assignment psi[face, :, n, g] = np.array([vals j for j in
range(ny)]) used to seed a sweep pass (lines 436, 458, 479-480, 501): the
value list is fully evaluated from the pre-assignment array, then written. -/
def seedFace (face ny n g : ℕ) (vals : ℕ → ℚ) (ψ : Psi2) : Psi2 :=
  fun w x y z => if w = face ∧ x < ny ∧ y = n ∧ z = g then vals x else ψ w x y z

/-- One spatial cell of the 2-D mesh. -/
structure Node2 where
  dx : ℚ
  dy : ℚ
  sigma_tr : ℕ → ℚ
  source : ℚ

/-- Static problem data for the 2-D calculator. The four boundary accessors
are the closures resolved by _set_bcs at construction (2-D branch); they read
the live angular-flux array and take the transverse index, direction and
group. calcSS is Modelled from the spec (Mesh.calculate_scatter_source is
external to calculator.py). -/
structure Cfg2 where
  nx : ℕ
  ny : ℕ
  groups : ℕ
  npq : ℕ
  Nflux : ℕ
  muxs : ℕ → ℚ
  muys : ℕ → ℚ
  weights : ℕ → ℚ
  nodes : ℕ → ℕ → Node2
  gW : Psi2 → ℕ → ℕ → ℕ → ℚ
  gE : Psi2 → ℕ → ℕ → ℕ → ℚ
  gN : Psi2 → ℕ → ℕ → ℕ → ℚ
  gS : Psi2 → ℕ → ℕ → ℕ → ℚ
  calcSS : Arr3 → Arr3

/-- Mutable 2-D mesh state. -/
structure St2 where
  flux : Arr3
  psi : Psi2

/-- DiamondDifferenceCalculator2D._get_source (lines 375-396): fixed source
plus half the scatter source. The eigenvalue argument k is accepted but
ignored; the fission contribution is commented out in the source (lines
394-395, and the docstring says fission is ignored until the eigenvalue
problem is implemented). -/
def getSource2d (cfg : Cfg2) (ssrc : Arr3) (i j g : ℕ) (k : Option ℚ) : ℚ :=
  (cfg.nodes i j).source + (1/2) * ssrc i j g

/-- The diamond-difference balance value of a 2-D cell (lines 443-446 and the
three analogous blocks): psi_bar = (q + xcoeff*psi_in_x + ycoeff*psi_in_y) /
(sigma_tr g + xcoeff + ycoeff) with xcoeff = 2 mux / dx, ycoeff = 2 muy / dy,
for the already absolute-valued cosines. -/
def ddBar (cfg : Cfg2) (ssrc : Arr3) (k : Option ℚ) (i j g : ℕ) (mux muy : ℚ)
    (ψx ψy : ℚ) : ℚ :=
  let node := cfg.nodes i j
  let q := getSource2d cfg ssrc i j g k
  let xcoeff := 2 * mux / node.dx
  let ycoeff := 2 * muy / node.dy
  (q + xcoeff * ψx + ycoeff * ψy) / (node.sigma_tr g + xcoeff + ycoeff)

/-- One cell of a 2-D sweep pass: read the incoming x-face flux at face rf,
form the balance value from it and the carried incoming y flux, write the
outgoing x-face flux 2 psi_bar - psi_in_x at face wf, and carry the outgoing
y flux 2 psi_bar - psi_in_y to the next cell of the column (lines 439-450 and
the three analogous blocks). -/
def ddStep (cfg : Cfg2) (ssrc : Arr3) (k : Option ℚ) (rf wf i j n g : ℕ)
    (mux muy : ℚ) (p : Psi2 × ℚ) : Psi2 × ℚ :=
  let ψx := p.1 rf j n g
  let ψbar := ddBar cfg ssrc k i j g mux muy ψx p.2
  (upd4 p.1 wf j n g (2 * ψbar - ψx), 2 * ψbar - p.2)

/-- Column of cells traversed with j ascending (for j in range(ny)). -/
def colAsc (cfg : Cfg2) (ssrc : Arr3) (k : Option ℚ) (rf wf i n g : ℕ)
    (mux muy : ℚ) (ψ : Psi2) (ψy : ℚ) : Psi2 × ℚ :=
  loopN (fun j p => ddStep cfg ssrc k rf wf i j n g mux muy p) 0 cfg.ny (ψ, ψy)

/-- Column of cells traversed with j descending (for j in reversed(range(ny)),
step t visiting row ny-1-t). -/
def colDesc (cfg : Cfg2) (ssrc : Arr3) (k : Option ℚ) (rf wf i n g : ℕ)
    (mux muy : ℚ) (ψ : Psi2) (ψy : ℚ) : Psi2 × ℚ :=
  loopN (fun t p => ddStep cfg ssrc k rf wf i (cfg.ny - 1 - t) n g mux muy p) 0 cfg.ny (ψ, ψy)

/-- Quadrant 1, forward sweep from the top left (lines 433-450), column at
x-index i: y inflow seeded from the north accessor, j ascending, x inflow
read at face i, x outflow written at face i+1. -/
def q1RowStep (cfg : Cfg2) (ssrc : Arr3) (k : Option ℚ) (n g : ℕ)
    (mux muy : ℚ) (i : ℕ) (ψ : Psi2) : Psi2 :=
  (colAsc cfg ssrc k i (i+1) i n g mux muy ψ (cfg.gN ψ i n g)).1

/-- Quadrant 1 pass for direction n and group g after the first t columns
(the pass itself is q1Upto at t = nx); the west faces are seeded first from
the west accessor, then the columns run left to right. -/
def q1Upto (cfg : Cfg2) (ssrc : Arr3) (k : Option ℚ) (g n t : ℕ) (ψ0 : Psi2) : Psi2 :=
  loopN (q1RowStep cfg ssrc k n g |cfg.muxs n| |cfg.muys n|) 0 t
    (seedFace 0 cfg.ny n g (fun j => cfg.gW ψ0 j n g) ψ0)

def q1Pass (cfg : Cfg2) (ssrc : Arr3) (k : Option ℚ) (g n : ℕ) (ψ0 : Psi2) : Psi2 :=
  q1Upto cfg ssrc k g n cfg.nx ψ0

/-- Quadrant 2, backward sweep from the top right (lines 455-472), column at
x-index i: y inflow from the north accessor, j ascending, x inflow read at
face i+1, x outflow written at face i; the cosines are indexed n - 2 npq. -/
def q2RowStep (cfg : Cfg2) (ssrc : Arr3) (k : Option ℚ) (n g : ℕ)
    (mux muy : ℚ) (i : ℕ) (ψ : Psi2) : Psi2 :=
  (colAsc cfg ssrc k (i+1) i i n g mux muy ψ (cfg.gN ψ i n g)).1

/-- Quadrant 2 pass after the first t columns (taken right to left: step t
processes x-index nx-1-t); the east faces are seeded first. -/
def q2Upto (cfg : Cfg2) (ssrc : Arr3) (k : Option ℚ) (g n t : ℕ) (ψ0 : Psi2) : Psi2 :=
  loopN (fun t ψ => q2RowStep cfg ssrc k n g |cfg.muxs (n - 2*cfg.npq)| |cfg.muys (n - 2*cfg.npq)|
      (cfg.nx - 1 - t) ψ) 0 t
    (seedFace cfg.nx cfg.ny n g (fun j => cfg.gE ψ0 j n g) ψ0)

def q2Pass (cfg : Cfg2) (ssrc : Arr3) (k : Option ℚ) (g n : ℕ) (ψ0 : Psi2) : Psi2 :=
  q2Upto cfg ssrc k g n cfg.nx ψ0

/-- Quadrant 3, forward sweep from the bottom left (lines 476-494), column at
x-index i: y inflow from the south accessor, j descending, x inflow read at
face i, x outflow written at face i+1; the cosines are indexed n - npq. -/
def q3RowStep (cfg : Cfg2) (ssrc : Arr3) (k : Option ℚ) (n g : ℕ)
    (mux muy : ℚ) (i : ℕ) (ψ : Psi2) : Psi2 :=
  (colDesc cfg ssrc k i (i+1) i n g mux muy ψ (cfg.gS ψ i n g)).1

def q3Upto (cfg : Cfg2) (ssrc : Arr3) (k : Option ℚ) (g n t : ℕ) (ψ0 : Psi2) : Psi2 :=
  loopN (q3RowStep cfg ssrc k n g |cfg.muxs (n - cfg.npq)| |cfg.muys (n - cfg.npq)|) 0 t
    (seedFace 0 cfg.ny n g (fun j => cfg.gW ψ0 j n g) ψ0)

def q3Pass (cfg : Cfg2) (ssrc : Arr3) (k : Option ℚ) (g n : ℕ) (ψ0 : Psi2) : Psi2 :=
  q3Upto cfg ssrc k g n cfg.nx ψ0

/-- Quadrant 4, backward sweep from the bottom right (lines 498-515), column
at x-index i: y inflow from the south accessor, j descending, x inflow read
at face i+1, x outflow written at face i; cosines indexed n - 3 npq. -/
def q4RowStep (cfg : Cfg2) (ssrc : Arr3) (k : Option ℚ) (n g : ℕ)
    (mux muy : ℚ) (i : ℕ) (ψ : Psi2) : Psi2 :=
  (colDesc cfg ssrc k (i+1) i i n g mux muy ψ (cfg.gS ψ i n g)).1

def q4Upto (cfg : Cfg2) (ssrc : Arr3) (k : Option ℚ) (g n t : ℕ) (ψ0 : Psi2) : Psi2 :=
  loopN (fun t ψ => q4RowStep cfg ssrc k n g |cfg.muxs (n - 3*cfg.npq)| |cfg.muys (n - 3*cfg.npq)|
      (cfg.nx - 1 - t) ψ) 0 t
    (seedFace cfg.nx cfg.ny n g (fun j => cfg.gE ψ0 j n g) ψ0)

def q4Pass (cfg : Cfg2) (ssrc : Arr3) (k : Option ℚ) (g n : ℕ) (ψ0 : Psi2) : Psi2 :=
  q4Upto cfg ssrc k g n cfg.nx ψ0

/-- The four direction loops of transport_sweep, in source order: quadrant 1
over directions 0 to npq-1, quadrant 2 over 2 npq to 3 npq - 1, quadrant 3
over npq to 2 npq - 1, quadrant 4 over 3 npq to Nflux - 1. -/
def q1Dirs (cfg : Cfg2) (ssrc : Arr3) (k : Option ℚ) (g : ℕ) (ψ : Psi2) : Psi2 :=
  loopN (fun n ψ => q1Pass cfg ssrc k g n ψ) 0 cfg.npq ψ

def q2Dirs (cfg : Cfg2) (ssrc : Arr3) (k : Option ℚ) (g : ℕ) (ψ : Psi2) : Psi2 :=
  loopN (fun n ψ => q2Pass cfg ssrc k g n ψ) (2*cfg.npq) cfg.npq ψ

def q3Dirs (cfg : Cfg2) (ssrc : Arr3) (k : Option ℚ) (g : ℕ) (ψ : Psi2) : Psi2 :=
  loopN (fun n ψ => q3Pass cfg ssrc k g n ψ) cfg.npq cfg.npq ψ

def q4Dirs (cfg : Cfg2) (ssrc : Arr3) (k : Option ℚ) (g : ℕ) (ψ : Psi2) : Psi2 :=
  loopN (fun n ψ => q4Pass cfg ssrc k g n ψ) (3*cfg.npq) (cfg.Nflux - 3*cfg.npq) ψ

/-- Scalar-flux cell value (lines 518-528): weights indexed n % npq, averaging
the two x faces bracketing the cell over all Nflux directions. -/
def fluxRow2 (cfg : Cfg2) (ψ : Psi2) (i j g : ℕ) : ℚ :=
  sumRange cfg.Nflux (fun n => cfg.weights (n % cfg.npq) * (ψ i j n g + ψ (i+1) j n g) / 2)

def fluxLoop2 (cfg : Cfg2) (ψ : Psi2) (g : ℕ) (fl0 : Arr3) : Arr3 :=
  loopN (fun i fl => loopN (fun j fl => upd3 fl i j g (fluxRow2 cfg ψ i j g)) 0 cfg.ny fl)
    0 cfg.nx fl0

def fluxUpdate2 (cfg : Cfg2) (g : ℕ) (st : St2) : St2 :=
  { st with flux := fluxLoop2 cfg st.psi g st.flux }

/-- One iteration of the 2-D group loop (lines 430-528): the four quadrant
passes in source order, then the scalar-flux update. -/
def groupBody2 (cfg : Cfg2) (ssrc : Arr3) (k : Option ℚ) (g : ℕ) (st : St2) : St2 :=
  fluxUpdate2 cfg g
    { st with psi := q4Dirs cfg ssrc k g (q3Dirs cfg ssrc k g (q2Dirs cfg ssrc k g
        (q1Dirs cfg ssrc k g st.psi))) }

/-- Pre-sqrt accumulator of l2norm2d (lines 398-409): note the guard is
f1 > 0 on the new value (the inequality test f1 != f0 is commented out in the
source). -/
def l2sum2d (cfg : Cfg2) (newA oldA : Arr3) : ℚ :=
  sumRange cfg.nx (fun i => sumRange cfg.ny (fun j => sumRange cfg.groups (fun g =>
    if 0 < newA i j g then ((newA i j g - oldA i j g) / newA i j g)^2 else 0)))

/-- DiamondDifferenceCalculator2D.l2norm2d (lines 398-409): the returned rms
is np.sqrt(diff / nx / nx); the divisor uses nx twice as in the source. -/
noncomputable def l2norm2d (cfg : Cfg2) (newA oldA : Arr3) : ℝ :=
  Real.sqrt ((l2sum2d cfg newA oldA : ℝ) / (cfg.nx : ℝ) / (cfg.nx : ℝ))

/-- DiamondDifferenceCalculator2D.transport_sweep (lines 411-531), with the
returned float split into its pre-sqrt sum (first component); the python
return value is np.sqrt of that sum divided twice by nx. -/
def transport_sweep2d (cfg : Cfg2) (ssrc : Arr3) (k : Option ℚ) (st : St2) :
    ℚ × St2 :=
  let old_flux := st.flux
  let st1 := loopN (groupBody2 cfg ssrc k) 0 cfg.groups st
  (l2sum2d cfg st1.flux old_flux, st1)

/-- The value returned by the python 2-D transport_sweep (line 531): the bare
float rms_flux. -/
noncomputable def sweep2dPyRet (cfg : Cfg2) (ssrc : Arr3) (k : Option ℚ)
    (st : St2) : PyRet :=
  .single (Real.sqrt (((transport_sweep2d cfg ssrc k st).1 : ℝ) / (cfg.nx : ℝ) / (cfg.nx : ℝ)))

/-- The inner loop of DiamondDifferenceCalculator2D.solve (lines 534-556):
same fuel convention as the 1-D inner loop; the guard compares the sweep rms
np.sqrt(sum/nx/nx) against eps. -/
def solve2dLoop (cfg : Cfg2) (ssrc : Arr3) (k : Option ℚ) (eps : ℚ) :
    ℕ → St2 → Bool × St2
  | 0, st => (false, (transport_sweep2d cfg ssrc k st).2)
  | 1, st => (false, (transport_sweep2d cfg ssrc k st).2)
  | r+2, st =>
    let out := transport_sweep2d cfg ssrc k st
    if sqrtGtQ (out.1 / cfg.nx / cfg.nx) eps then solve2dLoop cfg ssrc k eps (r+1) out.2
    else (true, out.2)

def solve2d (cfg : Cfg2) (ssrc : Arr3) (k : Option ℚ) (eps : ℚ) (maxiter : ℕ)
    (st : St2) : Bool × St2 :=
  solve2dLoop cfg ssrc k eps maxiter st

/-- j-fold application of the 2-D sweep to the mesh state. -/
def sweep2dStIter (cfg : Cfg2) (ssrc : Arr3) (k : Option ℚ) : ℕ → St2 → St2
  | 0, st => st
  | j+1, st => sweep2dStIter cfg ssrc k j (transport_sweep2d cfg ssrc k st).2

/-- The successive values taken by the carried psi_in_y variable of a 2-D
column pass at column i, reading the incoming x-face rf of the array ψ, when
the cells are visited in the row order jf 0, jf 1, ...; entry t is the
incoming y flux of the cell visited at step t. -/
def colY (cfg : Cfg2) (ssrc : Arr3) (k : Option ℚ) (rf i n g : ℕ) (mux muy : ℚ)
    (jf : ℕ → ℕ) (ψ : Psi2) (ψy0 : ℚ) : ℕ → ℚ
  | 0 => ψy0
  | t+1 => 2 * ddBar cfg ssrc k i (jf t) g mux muy (ψ rf (jf t) n g)
        (colY cfg ssrc k rf i n g mux muy jf ψ ψy0 t)
      - colY cfg ssrc k rf i n g mux muy jf ψ ψy0 t

/-! ## Claim-side definitions

These definitions transcribe formulas exactly as the specification claims
state them, to be compared against the definitions translated from the
source. -/

/-- The per-cell source exactly as claim C7 states it for an active
eigenvalue problem: fixed source + scatter/2 + fission/(2 k). -/
def claimSourceWithFission (fixed scatter fission k : ℚ) : ℚ :=
  fixed + (1/2) * scatter + (1/2) * fission / k

/-- The relative RMS norm exactly as claim C4 states it, 1-D form: accumulate
((A-B)/A)^2 over exactly the elements where A differs from B, and take
sqrt(sum / cell count) with nx cells. -/
noncomputable def claimNorm1d (nx groups : ℕ) (newA oldA : Arr2) : ℝ :=
  Real.sqrt ((sumRange nx (fun i => sumRange groups (fun g =>
    if newA i g ≠ oldA i g then ((newA i g - oldA i g) / newA i g)^2 else 0)) : ℝ) / (nx : ℝ))

/-- The relative RMS norm exactly as claim C4 states it, 2-D form: accumulate
((A-B)/A)^2 over exactly the elements where A differs from B, and take
sqrt(sum / cell count) with nx * ny cells. -/
noncomputable def claimNorm2d (cfg : Cfg2) (newA oldA : Arr3) : ℝ :=
  Real.sqrt ((sumRange cfg.nx (fun i => sumRange cfg.ny (fun j => sumRange cfg.groups (fun g =>
    if newA i j g ≠ oldA i j g then ((newA i j g - oldA i j g) / newA i j g)^2 else 0))) : ℝ)
    / ((cfg.nx : ℝ) * (cfg.ny : ℝ)))

/-! ## Concrete fixtures used by witnesses and counterexamples -/

def zeroArr2 : Arr2 := fun _ _ => 0

def zeroPsi1 : Psi1 := fun _ _ _ => 0

def zeroArr3 : Arr3 := fun _ _ _ => 0

def zeroPsi2 : Psi2 := fun _ _ _ _ => 0

/-- Vacuum incoming-flux accessor, as produced by _set_bcs for a vacuum
label. -/
def vacAcc : BAcc1 := fun _ _ _ => 0

def st1Zero : St1 := { flux := zeroArr2, psi := zeroPsi1 }

def st2Zero : St2 := { flux := zeroArr3, psi := zeroPsi2 }

/-- A homogeneous unit cell with no fixed source. -/
def nodeA : Node1 := { dx := 1, sigma_tr := fun _ => 1, source := 0 }

/-- A homogeneous unit cell with unit fixed source. -/
def nodeB : Node1 := { dx := 1, sigma_tr := fun _ => 1, source := 1 }

/-- One-cell, one-group 1-D problem with a symmetric 2-direction quadrature,
the literal data of the single-cell recurrence check in claim C1. -/
def cfgTriv : Cfg1 :=
  { nx := 1, groups := 1, nodes := fun _ => nodeA, N := 2, N2 := 1,
    mus := fun n => if n = 0 then 1/2 else -(1/2), weights := fun _ => 1,
    reflect_angle := id, calcFS := fun _ => zeroArr2, calcSS := fun _ => zeroArr2 }

/-- Two-cell 1-D problem whose cells carry different fixed sources (cell 0
none, cell 1 unit), exposing the backward-sweep source indexing. -/
def cfgC1 : Cfg1 :=
  { nx := 2, groups := 1, nodes := fun i => if i = 0 then nodeA else nodeB,
    N := 2, N2 := 1, mus := fun n => if n = 0 then 1/2 else -(1/2),
    weights := fun _ => 1, reflect_angle := id,
    calcFS := fun _ => zeroArr2, calcSS := fun _ => zeroArr2 }

/-- One-cell 1-D eigenvalue problem with a single backward direction and a
fission-source rule depending on the flux, used to drive one concrete outer
iteration. -/
def cfgC3 : Cfg1 :=
  { nx := 1, groups := 1, nodes := fun _ => nodeA, N := 1, N2 := 0,
    mus := fun _ => -(1/2), weights := fun _ => 1, reflect_angle := id,
    calcFS := fun fl => fun i g => fl i g + 1/2, calcSS := fun _ => zeroArr2 }

/-- Initial calculator state for the cfgC3 problem: stored fission source 2
everywhere, k = 1. -/
def s0C3 : Solver1 := { st := st1Zero, fsrc := some (fun _ _ => 2), ssrc := zeroArr2, k := 1 }

/-- One-cell 2-D problem with unit fixed source and vacuum accessors. -/
def cfg2Triv : Cfg2 :=
  { nx := 1, ny := 1, groups := 1, npq := 1, Nflux := 4,
    muxs := fun _ => 1/2, muys := fun _ => 1/2, weights := fun _ => 1,
    nodes := fun _ _ => { dx := 1, dy := 1, sigma_tr := fun _ => 1, source := 1 },
    gW := fun _ _ _ _ => 0, gE := fun _ _ _ _ => 0,
    gN := fun _ _ _ _ => 0, gS := fun _ _ _ _ => 0,
    calcSS := fun _ => zeroArr3 }

/-! ## Helper lemmas about the loop and sum combinators -/

theorem loopN_one {α : Type} (step : ℕ → α → α) (n0 : ℕ) (a : α) :
    loopN step n0 1 a = step n0 a := rfl

theorem loopN_two {α : Type} (step : ℕ → α → α) (n0 : ℕ) (a : α) :
    loopN step n0 2 a = step (n0+1) (step n0 a) := rfl

theorem sumRange_one (f : ℕ → ℚ) : sumRange 1 f = 0 + f 0 := rfl

theorem sumRange_two (f : ℕ → ℚ) : sumRange 2 f = 0 + f 0 + f 1 := rfl

theorem loopN_zero {α : Type} (step : ℕ → α → α) (n0 : ℕ) (a : α) :
    loopN step n0 0 a = a := rfl

theorem loopN_succ {α : Type} (step : ℕ → α → α) (n0 r : ℕ) (a : α) :
    loopN step n0 (r+1) a = loopN step (n0+1) r (step n0 a) := rfl

theorem loopN_succ_right {α : Type} (step : ℕ → α → α) :
    ∀ (r n0 : ℕ) (a : α), loopN step n0 (r+1) a = step (n0+r) (loopN step n0 r a) := by
  intro r
  induction r with
  | zero => intro n0 a; rfl
  | succ m ih =>
    intro n0 a
    rw [loopN_succ, ih (n0+1), loopN_succ]
    congr 1
    omega

theorem loopN_inv {α : Type} (P : α → Prop) (step : ℕ → α → α)
    (h : ∀ n a, P a → P (step n a)) :
    ∀ (r n0 : ℕ) (a : α), P a → P (loopN step n0 r a) := by
  intro r
  induction r with
  | zero => intro n0 a ha; exact ha
  | succ m ih => intro n0 a ha; exact ih (n0+1) (step n0 a) (h n0 a ha)

theorem loopN_inv_idx {α : Type} (P : ℕ → α → Prop) (step : ℕ → α → α)
    (h : ∀ n a, P n a → P (n+1) (step n a)) :
    ∀ (r n0 : ℕ) (a : α), P n0 a → P (n0+r) (loopN step n0 r a) := by
  intro r
  induction r with
  | zero => intro n0 a ha; exact ha
  | succ m ih =>
    intro n0 a ha
    have hstep := ih (n0+1) (step n0 a) (h n0 a ha)
    rw [loopN_succ]
    have harith : n0 + (m+1) = (n0+1) + m := by omega
    rw [harith]
    exact hstep

theorem sumRange_zero (f : ℕ → ℚ) : sumRange 0 f = 0 := rfl

theorem foldl_add_shift (l : List ℕ) (f : ℕ → ℚ) (a : ℚ) :
    l.foldl (fun a i => a + f i) a = a + l.foldl (fun a i => a + f i) 0 := by
  induction l generalizing a with
  | nil => simp
  | cons x xs ih =>
    simp only [List.foldl_cons]
    rw [ih (a + f x), ih (0 + f x)]
    ring

theorem sumRange_succ (n : ℕ) (f : ℕ → ℚ) : sumRange (n+1) f = sumRange n f + f n := by
  unfold sumRange
  rw [List.range_succ, List.foldl_append]
  simp only [List.foldl_cons, List.foldl_nil]

theorem sumRange_nonneg (n : ℕ) (f : ℕ → ℚ) (h : ∀ i, i < n → 0 ≤ f i) :
    0 ≤ sumRange n f := by
  induction n with
  | zero => simp [sumRange_zero]
  | succ m ih =>
    rw [sumRange_succ]
    exact add_nonneg (ih fun i hi => h i (Nat.lt_succ_of_lt hi)) (h m (Nat.lt_succ_self m))

theorem sumRange_eq_zero (n : ℕ) (f : ℕ → ℚ) (h : ∀ i, i < n → f i = 0) :
    sumRange n f = 0 := by
  induction n with
  | zero => simp [sumRange_zero]
  | succ m ih =>
    rw [sumRange_succ, ih fun i hi => h i (Nat.lt_succ_of_lt hi), h m (Nat.lt_succ_self m)]
    ring

theorem sumRange_congr (n : ℕ) (f g : ℕ → ℚ) (h : ∀ i, i < n → f i = g i) :
    sumRange n f = sumRange n g := by
  induction n with
  | zero => rfl
  | succ m ih =>
    rw [sumRange_succ, sumRange_succ, ih fun i hi => h i (Nat.lt_succ_of_lt hi),
      h m (Nat.lt_succ_self m)]

theorem sqrtGtQ_eq_true_iff (x e : ℚ) :
    sqrtGtQ x e = true ↔ (e : ℝ) < Real.sqrt (x : ℝ) := by
  unfold sqrtGtQ
  by_cases he : 0 ≤ e
  · simp only [he, if_true, decide_eq_true_eq]
    rw [show ((e:ℝ) < Real.sqrt x ↔ (e:ℝ)^2 < (x:ℝ)) from Real.lt_sqrt (by exact_mod_cast he)]
    constructor
    · intro h; exact_mod_cast h
    · intro h; exact_mod_cast h
  · simp only [he, if_false, true_iff]
    calc (e:ℝ) < 0 := by push_neg at he; exact_mod_cast he
    _ ≤ Real.sqrt x := Real.sqrt_nonneg _

theorem sqrtGtQ_eq_false_iff (x e : ℚ) :
    sqrtGtQ x e = false ↔ Real.sqrt (x : ℝ) ≤ (e : ℝ) := by
  rw [← not_iff_not, Bool.not_eq_false, sqrtGtQ_eq_true_iff x e, not_le]

/-! ## Claim C5 -/

/-- C5 (confirmed): constructing the 1-D calculator with a boundary-condition
pair containing a label outside the set vacuum / reflective / periodic, or
with one edge periodic and the other not, fails at construction time with a
ConfigurationError. -/
theorem mkCalculator1D_rejects_bad_bcs (cfg : Cfg1) (bcs : String × String)
    (kguess : ℚ) (st : St1) (fsrc0 : Option Arr2)
    (h : (¬ BOUNDARY_CONDITIONS.contains bcs.1 ∨ ¬ BOUNDARY_CONDITIONS.contains bcs.2)
      ∨ ((bcs.1 = "periodic" ∨ bcs.2 = "periodic") ∧ bcs.1 ≠ bcs.2)) :
    ∃ e, mkCalculator1D cfg bcs kguess st fsrc0 = .error e := by
  unfold mkCalculator1D setBCs1D
  by_cases hc1 : (BOUNDARY_CONDITIONS.contains bcs.1 : Prop)
  · by_cases hc2 : (BOUNDARY_CONDITIONS.contains bcs.2 : Prop)
    · have hp : (bcs.1 = "periodic" ∨ bcs.2 = "periodic") ∧ bcs.1 ≠ bcs.2 := by
        rcases h with (h | h) | h
        · exact absurd hc1 h
        · exact absurd hc2 h
        · exact h
      rw [if_neg (not_not_intro hc1), if_neg (not_not_intro hc2), if_pos hp]
      exact ⟨_, rfl⟩
    · rw [if_neg (not_not_intro hc1), if_pos hc2]
      exact ⟨_, rfl⟩
  · rw [if_pos hc1]
    exact ⟨_, rfl⟩

/-- C5 witness: the literal pair (periodic, vacuum) of the claim is rejected
at construction. -/
theorem mkCalculator1D_rejects_bad_bcs_witness :
    ∃ e, mkCalculator1D cfgTriv ("periodic", "vacuum") 1 st1Zero none = .error e :=
  mkCalculator1D_rejects_bad_bcs cfgTriv ("periodic", "vacuum") 1 st1Zero none
    (Or.inr (by decide))

/-! ## Claim C7 -/

/-- C7 counterexample: in the 2-D solver, with an active fission source
(value 4 stored for the cell) and a truthy eigenvalue k = 2, _get_source
returns fixed + scatter/2 = 2 and omits the claimed fission term; the
claimed source value would be 3. -/
theorem getSource2d_ignores_fission_counterexample :
    getSource2d cfg2Triv (fun _ _ _ => 2) 0 0 0 (some 2) = 2
    ∧ claimSourceWithFission (cfg2Triv.nodes 0 0).source 2 4 2 = 3
    ∧ getSource2d cfg2Triv (fun _ _ _ => 2) 0 0 0 (some 2)
      ≠ claimSourceWithFission (cfg2Triv.nodes 0 0).source 2 4 2 := by
  norm_num [getSource2d, claimSourceWithFission, cfg2Triv]

/-- C7 (corrected): in the 1-D solver the per-cell source is
fixed + scatter/2, with the fission term fission/(2k) added exactly when the
k argument is truthy (not None and nonzero), regardless of whether the
fission problem is active; in the 2-D solver the fission term is never added
(the k argument is ignored and the source is always fixed + scatter/2). -/
theorem getSource_fission_term_condition :
    (∀ (cfg : Cfg1) (ssrc fsA : Arr2) (i g : ℕ) (kv : ℚ), kv ≠ 0 →
      getSource1d cfg ssrc fsA i g (some kv)
        = (cfg.nodes i).source + (1/2) * ssrc i g + (1/2) * fsA i g / kv)
    ∧ (∀ (cfg : Cfg1) (ssrc fsA : Arr2) (i g : ℕ),
      getSource1d cfg ssrc fsA i g none = (cfg.nodes i).source + (1/2) * ssrc i g)
    ∧ (∀ (cfg : Cfg1) (ssrc fsA : Arr2) (i g : ℕ),
      getSource1d cfg ssrc fsA i g (some 0) = (cfg.nodes i).source + (1/2) * ssrc i g)
    ∧ (∀ (cfg : Cfg2) (ssrc : Arr3) (i j g : ℕ) (k k' : Option ℚ),
      getSource2d cfg ssrc i j g k = getSource2d cfg ssrc i j g k')
    ∧ (∀ (cfg : Cfg2) (ssrc : Arr3) (i j g : ℕ) (k : Option ℚ),
      getSource2d cfg ssrc i j g k = (cfg.nodes i j).source + (1/2) * ssrc i j g) := by
  refine ⟨?_, ?_, ?_, ?_, ?_⟩
  · intro cfg ssrc fsA i g kv hk
    simp [getSource1d, hk]
  · intro cfg ssrc fsA i g
    simp [getSource1d]
  · intro cfg ssrc fsA i g
    simp [getSource1d]
  · intro cfg ssrc i j g k k'
    rfl
  · intro cfg ssrc i j g k
    rfl

/-- C7 witness: the truthiness hypothesis discharged at k = 1 on a concrete
configuration. -/
theorem getSource_fission_term_condition_witness :
    (1 : ℚ) ≠ 0
    ∧ getSource1d cfgTriv zeroArr2 zeroArr2 0 0 (some 1)
      = (cfgTriv.nodes 0).source + (1/2) * zeroArr2 0 0 + (1/2) * zeroArr2 0 0 / 1 :=
  ⟨by norm_num, getSource_fission_term_condition.1 cfgTriv zeroArr2 zeroArr2 0 0 1 (by norm_num)⟩

/-! ## Claim C6 -/

/-- C6 counterexample: the value returned by the 2-D transport sweep is a
bare float (the scalar-flux rms), not the claimed triple. -/
theorem sweep2d_returns_single_counterexample :
    (sweep2dPyRet cfg2Triv zeroArr3 (some 1) st2Zero).isTriple = false := rfl

/-- C6 (corrected): the 1-D sweep returns the triple (updated fission source
or sentinel, fission rms, flux rms), but the 2-D sweep returns only the
scalar-flux rms, a single float. -/
theorem sweep_return_shapes :
    (∀ (cfg : Cfg1) (gW gE : BAcc1) (k : ℚ) (fsrc : Option Arr2) (ssrc : Arr2) (st : St1),
      sweep1dPyRet cfg gW gE k fsrc ssrc st
        = .triple (transport_sweep1d cfg gW gE k fsrc ssrc st).fs
            (rms1d cfg (transport_sweep1d cfg gW gE k fsrc ssrc st).fsSum)
            (rms1d cfg (transport_sweep1d cfg gW gE k fsrc ssrc st).fluxSum))
    ∧ (∀ (cfg : Cfg2) (ssrc : Arr3) (k : Option ℚ) (st : St2),
      sweep2dPyRet cfg ssrc k st
        = .single (l2norm2d cfg (transport_sweep2d cfg ssrc k st).2.flux st.flux)) := by
  constructor
  · intro cfg gW gE k fsrc ssrc st
    rfl
  · intro cfg ssrc k st
    rfl

/-! ## Claim C4 -/

/-- C4 counterexample: at a 1 by 1 mesh with new value -1 and old value 1,
l2norm2d returns 0 (its guard skips nonpositive new values), while the
claimed accumulate-where-different norm equals 2. -/
theorem l2norm2d_claim_counterexample :
    l2norm2d cfg2Triv (fun _ _ _ => -1) (fun _ _ _ => 1) = 0
    ∧ claimNorm2d cfg2Triv (fun _ _ _ => -1) (fun _ _ _ => 1) = 2
    ∧ l2norm2d cfg2Triv (fun _ _ _ => -1) (fun _ _ _ => 1)
      ≠ claimNorm2d cfg2Triv (fun _ _ _ => -1) (fun _ _ _ => 1) := by
  have h1 : l2norm2d cfg2Triv (fun _ _ _ => -1) (fun _ _ _ => 1) = 0 := by
    unfold l2norm2d l2sum2d
    norm_num [cfg2Triv, sumRange_one]
  have h2 : claimNorm2d cfg2Triv (fun _ _ _ => -1) (fun _ _ _ => 1) = 2 := by
    unfold claimNorm2d
    norm_num [cfg2Triv, sumRange_one]
    rw [show ((4:ℝ)) = 2^2 by norm_num, Real.sqrt_sq (by norm_num)]
  refine ⟨h1, h2, ?_⟩
  rw [h1, h2]
  norm_num

/-- C4 (corrected): the 1-D relative RMS metric is exactly the claimed norm
(accumulate ((A-B)/A)^2 where A differs from B, then sqrt(sum/nx)), and the
norm of an array against itself is 0 in both dimensions; but the 2-D metric
guards on the new value being positive, not on the values differing (so it is
insensitive to the old value wherever the new value is nonpositive), and
divides by nx twice rather than by nx * ny. -/
theorem rms_norm_properties :
    (∀ (nx groups : ℕ) (A B : Arr2),
      Real.sqrt ((l2sum1d nx groups A B : ℝ) / (nx : ℝ)) = claimNorm1d nx groups A B)
    ∧ (∀ (nx groups : ℕ) (A : Arr2),
      Real.sqrt ((l2sum1d nx groups A A : ℝ) / (nx : ℝ)) = 0)
    ∧ (∀ (cfg : Cfg2) (A : Arr3), l2norm2d cfg A A = 0)
    ∧ (∀ (cfg : Cfg2) (A B B' : Arr3),
      (∀ i j g, 0 < A i j g → B i j g = B' i j g) →
      l2norm2d cfg A B = l2norm2d cfg A B') := by
  refine ⟨?_, ?_, ?_, ?_⟩
  · intro nx groups A B
    rfl
  · intro nx groups A
    have hz : l2sum1d nx groups A A = 0 := by
      unfold l2sum1d
      apply sumRange_eq_zero
      intro i _
      apply sumRange_eq_zero
      intro g _
      simp [relDiffSq]
    rw [hz]
    simp
  · intro cfg A
    have hz : l2sum2d cfg A A = 0 := by
      unfold l2sum2d
      apply sumRange_eq_zero
      intro i _
      apply sumRange_eq_zero
      intro j _
      apply sumRange_eq_zero
      intro g _
      simp
    unfold l2norm2d
    rw [hz]
    simp
  · intro cfg A B B' h
    have hz : l2sum2d cfg A B = l2sum2d cfg A B' := by
      unfold l2sum2d
      apply sumRange_congr
      intro i _
      apply sumRange_congr
      intro j _
      apply sumRange_congr
      intro g _
      by_cases hpos : 0 < A i j g
      · rw [if_pos hpos, if_pos hpos, h i j g hpos]
      · rw [if_neg hpos, if_neg hpos]
    unfold l2norm2d
    rw [hz]

/-- C4 witness: the insensitivity hypothesis of the amended 2-D statement
discharged vacuously at an all-zero new array. -/
theorem rms_norm_properties_witness :
    l2norm2d cfg2Triv zeroArr3 zeroArr3 = l2norm2d cfg2Triv zeroArr3 (fun _ _ _ => 1) :=
  rms_norm_properties.2.2.2 cfg2Triv zeroArr3 zeroArr3 (fun _ _ _ => 1)
    (fun i j g h => absurd h (by norm_num [zeroArr3]))

/-! ## Claim C1 -/

/-- C1 (code bug): on the two-cell problem cfgC1 (cell 0 sourceless, cell 1
with unit source, vacuum boundaries, k = 1, zero scatter and fission), the
backward sweep visits cell 1 first (direction n = 1, writing face 1) taking
dx and sigma_tr from cell 1 but the source from cell 0, producing 0; the
recurrence stated by the claim, with the visited cell's own source q(1) = 1,
gives 1 instead. The final conjunct checks the claim's true single-cell
forward example: dx = 1, sigma_tr = 1, mu = 1/2, psi_in = 2, q = 0 yields
psi_out = 0. -/
theorem backward_sweep_pairs_mirrored_source :
    (transport_sweep1d cfgC1 vacAcc vacAcc 1 (some zeroArr2) zeroArr2 st1Zero).st.psi 1 1 0 = 0
    ∧ ((0 : ℚ) * (2 * |cfgC1.mus 1| - (cfgC1.nodes 1).dx * (cfgC1.nodes 1).sigma_tr 0)
        + 2 * (cfgC1.nodes 1).dx * getSource1d cfgC1 zeroArr2 zeroArr2 1 0 (some 1))
      / (2 * |cfgC1.mus 1| + (cfgC1.nodes 1).dx * (cfgC1.nodes 1).sigma_tr 0) = 1
    ∧ (transport_sweep1d cfgC1 vacAcc vacAcc 1 (some zeroArr2) zeroArr2 st1Zero).st.psi 1 1 0
      ≠ ((0 : ℚ) * (2 * |cfgC1.mus 1| - (cfgC1.nodes 1).dx * (cfgC1.nodes 1).sigma_tr 0)
        + 2 * (cfgC1.nodes 1).dx * getSource1d cfgC1 zeroArr2 zeroArr2 1 0 (some 1))
      / (2 * |cfgC1.mus 1| + (cfgC1.nodes 1).dx * (cfgC1.nodes 1).sigma_tr 0)
    ∧ (transport_sweep1d cfgTriv (fun _ _ _ => 2) vacAcc 1 (some zeroArr2) zeroArr2 st1Zero).st.psi 1 0 0 = 0 := by
  have habs1 : |(1/2 : ℚ)| = 1/2 := by norm_num
  have habs2 : |(-(1/2) : ℚ)| = 1/2 := by norm_num
  refine ⟨?_, ?_, ?_, ?_⟩
  · norm_num [transport_sweep1d, sweepGroupsUpto, groupBody1, fwdPass, bwdPass, fwdOneDir,
      bwdOneDir, fwdCellStep, bwdCellStep, fluxUpdate1, getSource1d, updAllG, upd3, upd2,
      vacAcc, st1Zero, zeroArr2, zeroPsi1, cfgC1, nodeA, nodeB, loopN_one, loopN_two,
      habs1, habs2]
  · norm_num [getSource1d, cfgC1, nodeA, nodeB, habs2, zeroArr2]
  · norm_num [transport_sweep1d, sweepGroupsUpto, groupBody1, fwdPass, bwdPass, fwdOneDir,
      bwdOneDir, fwdCellStep, bwdCellStep, fluxUpdate1, getSource1d, updAllG, upd3, upd2,
      vacAcc, st1Zero, zeroArr2, zeroPsi1, cfgC1, nodeA, nodeB, loopN_one, loopN_two,
      habs1, habs2]
  · norm_num [transport_sweep1d, sweepGroupsUpto, groupBody1, fwdPass, bwdPass, fwdOneDir,
      bwdOneDir, fwdCellStep, bwdCellStep, fluxUpdate1, getSource1d, updAllG, upd3, upd2,
      vacAcc, st1Zero, zeroArr2, zeroPsi1, cfgTriv, nodeA, loopN_one, loopN_two,
      habs1, habs2]

/-! ## Claim C9 -/

theorem setBCs1D_vacuum_eq (cfg : Cfg1) :
    setBCs1D cfg ("vacuum", "vacuum") = .ok ((fun _ _ _ => 0), (fun _ _ _ => 0)) := rfl

theorem getSource1d_zero (cfg : Cfg1) (ssrc fsA : Arr2) (i g : ℕ) (k : Option ℚ)
    (hsrc : (cfg.nodes i).source = 0) (hss : ssrc i g = 0) (hfs : fsA i g = 0) :
    getSource1d cfg ssrc fsA i g k = 0 := by
  unfold getSource1d
  rcases k with _ | kv
  · simp [hsrc, hss]
  · by_cases hk : kv = 0 <;> simp [hsrc, hss, hfs, hk]

theorem fwdCellStep_zero (cfg : Cfg1) (ssrc fsA : Arr2) (k : ℚ) (g n : ℕ) (mu : ℚ)
    (hq : ∀ i, getSource1d cfg ssrc fsA i g (some k) = 0) (i : ℕ) (p : Psi1 × ℚ)
    (hp : (∀ f m h, p.1 f m h = 0) ∧ p.2 = 0) :
    (∀ f m h, (fwdCellStep cfg ssrc fsA k g n mu i p).1 f m h = 0)
      ∧ (fwdCellStep cfg ssrc fsA k g n mu i p).2 = 0 := by
  obtain ⟨h1, h2⟩ := hp
  unfold fwdCellStep
  simp only [hq, h2]
  refine ⟨?_, by norm_num⟩
  intro f m h
  unfold updAllG
  split
  · norm_num
  · exact h1 f m h

theorem bwdCellStep_zero (cfg : Cfg1) (ssrc fsA : Arr2) (k : ℚ) (g n : ℕ) (mu : ℚ)
    (hq : ∀ i, getSource1d cfg ssrc fsA i g (some k) = 0) (i : ℕ) (p : Psi1 × ℚ)
    (hp : (∀ f m h, p.1 f m h = 0) ∧ p.2 = 0) :
    (∀ f m h, (bwdCellStep cfg ssrc fsA k g n mu i p).1 f m h = 0)
      ∧ (bwdCellStep cfg ssrc fsA k g n mu i p).2 = 0 := by
  obtain ⟨h1, h2⟩ := hp
  unfold bwdCellStep
  simp only [hq, h2]
  refine ⟨?_, by norm_num⟩
  intro f m h
  unfold upd3
  split
  · norm_num
  · exact h1 f m h

theorem fwdOneDir_zero (cfg : Cfg1) (ssrc fsA : Arr2) (k : ℚ) (gW : BAcc1) (g n : ℕ)
    (hq : ∀ i g, getSource1d cfg ssrc fsA i g (some k) = 0)
    (hgW : ∀ ψ n g, gW ψ n g = 0) (ψ : Psi1) (hψ : ∀ f m h, ψ f m h = 0) :
    ∀ f m h, fwdOneDir cfg ssrc fsA k gW g n ψ f m h = 0 := by
  unfold fwdOneDir
  have hinv := loopN_inv (fun p : Psi1 × ℚ => (∀ f m h, p.1 f m h = 0) ∧ p.2 = 0)
    (fwdCellStep cfg ssrc fsA k g n |cfg.mus n|)
    (fun i p hp => fwdCellStep_zero cfg ssrc fsA k g n |cfg.mus n| (fun i => hq i g) i p hp)
    cfg.nx 0 (updAllG ψ 0 n (gW ψ n g), gW ψ n g)
  refine (hinv ⟨?_, hgW ψ n g⟩).1
  intro f m h
  show updAllG ψ 0 n (gW ψ n g) f m h = 0
  unfold updAllG
  split
  · exact hgW ψ n g
  · exact hψ f m h

theorem bwdOneDir_zero (cfg : Cfg1) (ssrc fsA : Arr2) (k : ℚ) (gE : BAcc1) (g n : ℕ)
    (hq : ∀ i g, getSource1d cfg ssrc fsA i g (some k) = 0)
    (hgE : ∀ ψ n g, gE ψ n g = 0) (ψ : Psi1) (hψ : ∀ f m h, ψ f m h = 0) :
    ∀ f m h, bwdOneDir cfg ssrc fsA k gE g n ψ f m h = 0 := by
  unfold bwdOneDir
  have hinv := loopN_inv (fun p : Psi1 × ℚ => (∀ f m h, p.1 f m h = 0) ∧ p.2 = 0)
    (bwdCellStep cfg ssrc fsA k g n |cfg.mus n|)
    (fun i p hp => bwdCellStep_zero cfg ssrc fsA k g n |cfg.mus n| (fun i => hq i g) i p hp)
    cfg.nx 0 (upd3 ψ cfg.nx n g (gE ψ n g), gE ψ n g)
  have hbase : (∀ f m h, (upd3 ψ cfg.nx n g (gE ψ n g)) f m h = 0) ∧ gE ψ n g = 0 := by
    refine ⟨?_, hgE ψ n g⟩
    intro f m h
    unfold upd3
    split
    · exact hgE ψ n g
    · exact hψ f m h
  obtain ⟨hh1, hh2⟩ := hinv hbase
  intro f m h
  unfold upd3
  split
  · exact hh2
  · exact hh1 f m h

theorem groupBody1_zero (cfg : Cfg1) (ssrc fsA : Arr2) (k : ℚ) (gW gE : BAcc1) (g : ℕ)
    (hq : ∀ i g, getSource1d cfg ssrc fsA i g (some k) = 0)
    (hgW : ∀ ψ n g, gW ψ n g = 0) (hgE : ∀ ψ n g, gE ψ n g = 0) (st : St1)
    (hst : (∀ i g, st.flux i g = 0) ∧ (∀ f m h, st.psi f m h = 0)) :
    (∀ i' g', (groupBody1 cfg ssrc fsA k gW gE g st).flux i' g' = 0)
      ∧ (∀ f m h, (groupBody1 cfg ssrc fsA k gW gE g st).psi f m h = 0) := by
  obtain ⟨hfl, hψ⟩ := hst
  have hψ1 : ∀ f m h, fwdPass cfg ssrc fsA k gW g st.psi f m h = 0 := by
    unfold fwdPass
    have := loopN_inv (fun ψ : Psi1 => ∀ f m h, ψ f m h = 0)
      (fun n ψ => fwdOneDir cfg ssrc fsA k gW g n ψ)
      (fun n ψ hp => fwdOneDir_zero cfg ssrc fsA k gW g n hq hgW ψ hp) cfg.N2 0 st.psi
    exact this hψ
  have hψ2 : ∀ f m h,
      bwdPass cfg ssrc fsA k gE g (fwdPass cfg ssrc fsA k gW g st.psi) f m h = 0 := by
    unfold bwdPass
    have := loopN_inv (fun ψ : Psi1 => ∀ f m h, ψ f m h = 0)
      (fun n ψ => bwdOneDir cfg ssrc fsA k gE g n ψ)
      (fun n ψ hp => bwdOneDir_zero cfg ssrc fsA k gE g n hq hgE ψ hp)
      (cfg.N - cfg.N2) cfg.N2 (fwdPass cfg ssrc fsA k gW g st.psi)
    exact this hψ1
  have hrow : ∀ ψ' : Psi1, (∀ f m h, ψ' f m h = 0) → ∀ i g, fluxRow cfg ψ' i g = 0 := by
    intro ψ' hz i g
    unfold fluxRow
    apply sumRange_eq_zero
    intro n _
    rw [hz (i+1) n g, hz i n g]
    ring
  have hloop := loopN_inv (fun fl : Arr2 => ∀ i g, fl i g = 0)
    (fun i fl => upd2 fl i g
      (fluxRow cfg (bwdPass cfg ssrc fsA k gE g (fwdPass cfg ssrc fsA k gW g st.psi)) i g))
    (fun i fl hp => by
      intro a b
      show upd2 fl i g
        (fluxRow cfg (bwdPass cfg ssrc fsA k gE g (fwdPass cfg ssrc fsA k gW g st.psi)) i g) a b = 0
      unfold upd2
      split
      · exact hrow _ hψ2 i g
      · exact hp a b) cfg.nx 0 st.flux
  constructor
  · intro i g'
    dsimp only [groupBody1, fluxUpdate1]
    exact hloop hfl i g'
  · intro f m h
    exact hψ2 f m h

/-- C9 (confirmed): for any mesh size and quadrature, with both boundary
conditions vacuum, zero fixed source, zero scatter and fission sources, and
zero initial scalar and angular flux, one transport sweep leaves the scalar
flux exactly zero in every cell and group. -/
theorem zero_field_invariant (cfg : Cfg1) (gW gE : BAcc1) (k : ℚ)
    (fsrc ssrc : Arr2) (st : St1)
    (hbc : setBCs1D cfg ("vacuum", "vacuum") = .ok (gW, gE))
    (hsrc : ∀ i, (cfg.nodes i).source = 0)
    (hss : ∀ i g, ssrc i g = 0)
    (hfs : ∀ i g, fsrc i g = 0)
    (hflux : ∀ i g, st.flux i g = 0)
    (hpsi : ∀ f n g, st.psi f n g = 0) :
    ∀ i g, (transport_sweep1d cfg gW gE k (some fsrc) ssrc st).st.flux i g = 0 := by
  have h0 := setBCs1D_vacuum_eq cfg
  rw [hbc] at h0
  simp only [Except.ok.injEq, Prod.mk.injEq] at h0
  obtain ⟨hgW, hgE⟩ := h0
  subst hgW
  subst hgE
  have hq : ∀ i g, getSource1d cfg ssrc fsrc i g (some k) = 0 :=
    fun i g => getSource1d_zero cfg ssrc fsrc i g (some k) (hsrc i) (hss i g) (hfs i g)
  intro i g
  show (sweepGroupsUpto cfg ssrc fsrc k (fun _ _ _ => 0) (fun _ _ _ => 0) cfg.groups st).flux i g = 0
  unfold sweepGroupsUpto
  have := loopN_inv
    (fun st : St1 => (∀ i g, st.flux i g = 0) ∧ (∀ f m h, st.psi f m h = 0))
    (groupBody1 cfg ssrc fsrc k (fun _ _ _ => 0) (fun _ _ _ => 0))
    (fun g st hst => groupBody1_zero cfg ssrc fsrc k (fun _ _ _ => 0) (fun _ _ _ => 0) g hq
      (fun _ _ _ => rfl) (fun _ _ _ => rfl) st hst)
    cfg.groups 0 st
  exact (this ⟨hflux, hpsi⟩).1 i g

/-- C9 witness: the invariant instantiated on the concrete one-cell problem
with all-zero data, read at cell 0, group 0. -/
theorem zero_field_invariant_witness :
    (transport_sweep1d cfgTriv (fun _ _ _ => 0) (fun _ _ _ => 0) 1
      (some zeroArr2) zeroArr2 st1Zero).st.flux 0 0 = 0 :=
  zero_field_invariant cfgTriv (fun _ _ _ => 0) (fun _ _ _ => 0) 1 zeroArr2 zeroArr2 st1Zero
    rfl (fun _ => rfl) (fun _ _ => rfl) (fun _ _ => rfl) (fun _ _ => rfl) (fun _ _ _ => rfl)
    0 0

/-! ## Claim C10 -/

theorem fwdOneDir_uniform (cfg : Cfg1) (ssrc fsA : Arr2) (k : ℚ) (gW : BAcc1)
    (g n : ℕ) (ψ : Psi1) :
    ∀ f, f ≤ cfg.nx → ∀ g1 g2,
      fwdOneDir cfg ssrc fsA k gW g n ψ f n g1 = fwdOneDir cfg ssrc fsA k gW g n ψ f n g2 := by
  unfold fwdOneDir
  have hbase : ∀ f, f ≤ 0 → ∀ g1 g2,
      (updAllG ψ 0 n (gW ψ n g), gW ψ n g).1 f n g1
        = (updAllG ψ 0 n (gW ψ n g), gW ψ n g).1 f n g2 := by
    intro f hf g1 g2
    interval_cases f
    show updAllG ψ 0 n (gW ψ n g) 0 n g1 = updAllG ψ 0 n (gW ψ n g) 0 n g2
    unfold updAllG
    simp
  have hstep : ∀ i (p : Psi1 × ℚ),
      (∀ f, f ≤ i → ∀ g1 g2, p.1 f n g1 = p.1 f n g2) →
      (∀ f, f ≤ i + 1 → ∀ g1 g2,
        (fwdCellStep cfg ssrc fsA k g n |cfg.mus n| i p).1 f n g1
          = (fwdCellStep cfg ssrc fsA k g n |cfg.mus n| i p).1 f n g2) := by
    intro i p hp f hf g1 g2
    show updAllG p.1 (i+1) n _ f n g1 = updAllG p.1 (i+1) n _ f n g2
    unfold updAllG
    by_cases hfi : f = i + 1
    · simp [hfi]
    · rw [if_neg (by tauto), if_neg (by tauto)]
      exact hp f (by omega) g1 g2
  have := loopN_inv_idx
    (fun i p => ∀ f, f ≤ i → ∀ g1 g2, (p : Psi1 × ℚ).1 f n g1 = p.1 f n g2)
    (fwdCellStep cfg ssrc fsA k g n |cfg.mus n|) hstep cfg.nx 0
    (updAllG ψ 0 n (gW ψ n g), gW ψ n g) hbase
  intro f hf g1 g2
  exact this f (by omega) g1 g2

theorem fwdOneDir_frame (cfg : Cfg1) (ssrc fsA : Arr2) (k : ℚ) (gW : BAcc1)
    (g n : ℕ) (ψ : Psi1) :
    ∀ f m g', m ≠ n → fwdOneDir cfg ssrc fsA k gW g n ψ f m g' = ψ f m g' := by
  unfold fwdOneDir
  have := loopN_inv
    (fun p : Psi1 × ℚ => ∀ f m g', m ≠ n → p.1 f m g' = ψ f m g')
    (fwdCellStep cfg ssrc fsA k g n |cfg.mus n|)
    (fun i p hp => by
      intro f m g' hm
      show updAllG p.1 (i+1) n _ f m g' = ψ f m g'
      unfold updAllG
      rw [if_neg (by tauto)]
      exact hp f m g' hm)
    cfg.nx 0 (updAllG ψ 0 n (gW ψ n g), gW ψ n g)
  refine fun f m g' hm => this ?_ f m g' hm
  intro f m g' hm
  show updAllG ψ 0 n (gW ψ n g) f m g' = ψ f m g'
  unfold updAllG
  rw [if_neg (by tauto)]

theorem bwdOneDir_frame (cfg : Cfg1) (ssrc fsA : Arr2) (k : ℚ) (gE : BAcc1)
    (g n : ℕ) (ψ : Psi1) :
    ∀ f m g', m ≠ n ∨ g' ≠ g → bwdOneDir cfg ssrc fsA k gE g n ψ f m g' = ψ f m g' := by
  unfold bwdOneDir
  have hloop := loopN_inv
    (fun p : Psi1 × ℚ => ∀ f m g', m ≠ n ∨ g' ≠ g → p.1 f m g' = ψ f m g')
    (bwdCellStep cfg ssrc fsA k g n |cfg.mus n|)
    (fun i p hp => by
      intro f m g' hm
      show upd3 p.1 (cfg.nx - 1 - i) n g _ f m g' = ψ f m g'
      unfold upd3
      rw [if_neg (by tauto)]
      exact hp f m g' hm)
    cfg.nx 0 (upd3 ψ cfg.nx n g (gE ψ n g), gE ψ n g)
  intro f m g' hm
  show upd3 _ 0 n g _ f m g' = ψ f m g'
  unfold upd3
  rw [if_neg (by tauto)]
  refine hloop ?_ f m g' hm
  intro f m g' hm
  show upd3 ψ cfg.nx n g (gE ψ n g) f m g' = ψ f m g'
  unfold upd3
  rw [if_neg (by tauto)]

theorem fwdPass_uniform (cfg : Cfg1) (ssrc fsA : Arr2) (k : ℚ) (gW : BAcc1)
    (g : ℕ) (ψ : Psi1) :
    ∀ n, n < cfg.N2 → ∀ f, f ≤ cfg.nx → ∀ g1 g2,
      fwdPass cfg ssrc fsA k gW g ψ f n g1 = fwdPass cfg ssrc fsA k gW g ψ f n g2 := by
  unfold fwdPass
  have := loopN_inv_idx
    (fun nv ψ' => ∀ n', n' < nv → ∀ f, f ≤ cfg.nx → ∀ g1 g2,
      (ψ' : Psi1) f n' g1 = ψ' f n' g2)
    (fun n ψ => fwdOneDir cfg ssrc fsA k gW g n ψ)
    (fun n ψ' hp => by
      intro n' hn' f hf g1 g2
      by_cases heq : n' = n
      · subst heq
        exact fwdOneDir_uniform cfg ssrc fsA k gW g n' ψ' f hf g1 g2
      · dsimp only
        rw [fwdOneDir_frame cfg ssrc fsA k gW g n ψ' f n' g1 heq,
          fwdOneDir_frame cfg ssrc fsA k gW g n ψ' f n' g2 heq]
        exact hp n' (by omega) f hf g1 g2)
    cfg.N2 0 ψ (by omega)
  intro n hn f hf g1 g2
  exact this n (by omega) f hf g1 g2

theorem bwdPass_frame_below_N2 (cfg : Cfg1) (ssrc fsA : Arr2) (k : ℚ) (gE : BAcc1)
    (g : ℕ) (ψ : Psi1) :
    ∀ f m g', m < cfg.N2 → bwdPass cfg ssrc fsA k gE g ψ f m g' = ψ f m g' := by
  unfold bwdPass
  have := loopN_inv_idx
    (fun nv ψ' => cfg.N2 ≤ nv ∧ ∀ f m g', m < cfg.N2 → (ψ' : Psi1) f m g' = ψ f m g')
    (fun n ψ => bwdOneDir cfg ssrc fsA k gE g n ψ)
    (fun n ψ' hp => by
      obtain ⟨hn, hfr⟩ := hp
      refine ⟨by omega, ?_⟩
      intro f m g' hm
      dsimp only
      rw [bwdOneDir_frame cfg ssrc fsA k gE g n ψ' f m g' (Or.inl (by omega))]
      exact hfr f m g' hm)
    (cfg.N - cfg.N2) cfg.N2 ψ ⟨le_refl _, fun _ _ _ _ => rfl⟩
  exact this.2

/-- C10 (confirmed): in the 1-D sweep, the forward-hemisphere angular-flux
stores omit the group index, writing group g's value into every group slot of
the touched face and direction; consequently, after the whole sweep, every
face of a forward direction holds, in every group slot, the value written by
the last group's forward pass. -/
theorem forward_writes_broadcast_groups (cfg : Cfg1) (gW gE : BAcc1) (k : ℚ)
    (fsrc : Option Arr2) (ssrc : Arr2) (st : St1) (hg : 0 < cfg.groups) :
    ∀ n, n < cfg.N2 → ∀ f, f ≤ cfg.nx → ∀ g1 g2,
      (transport_sweep1d cfg gW gE k fsrc ssrc st).st.psi f n g1
        = (transport_sweep1d cfg gW gE k fsrc ssrc st).st.psi f n g2
      ∧ (transport_sweep1d cfg gW gE k fsrc ssrc st).st.psi f n g1
        = fwdPass cfg ssrc (fsrc.getD (fun _ _ => 0)) k gW (cfg.groups - 1)
            (sweepGroupsUpto cfg ssrc (fsrc.getD (fun _ _ => 0)) k gW gE
              (cfg.groups - 1) st).psi f n g1 := by
  intro n hn f hf g1 g2
  obtain ⟨m, hm⟩ : ∃ m, cfg.groups = m + 1 := ⟨cfg.groups - 1, by omega⟩
  have hpsi : (transport_sweep1d cfg gW gE k fsrc ssrc st).st.psi
      = bwdPass cfg ssrc (fsrc.getD (fun _ _ => 0)) k gE m
          (fwdPass cfg ssrc (fsrc.getD (fun _ _ => 0)) k gW m
            (sweepGroupsUpto cfg ssrc (fsrc.getD (fun _ _ => 0)) k gW gE m st).psi) := by
    show (sweepGroupsUpto cfg ssrc (fsrc.getD (fun _ _ => 0)) k gW gE cfg.groups st).psi = _
    rw [hm]
    unfold sweepGroupsUpto
    rw [loopN_succ_right]
    simp only [Nat.zero_add]
    rfl
  have hm1 : cfg.groups - 1 = m := by omega
  rw [hpsi, hm1]
  set ψfp := fwdPass cfg ssrc (fsrc.getD (fun _ _ => 0)) k gW m
    (sweepGroupsUpto cfg ssrc (fsrc.getD (fun _ _ => 0)) k gW gE m st).psi with hψfp
  constructor
  · rw [bwdPass_frame_below_N2 cfg ssrc _ k gE m ψfp f n g1 hn,
      bwdPass_frame_below_N2 cfg ssrc _ k gE m ψfp f n g2 hn]
    exact fwdPass_uniform cfg ssrc _ k gW m _ n hn f hf g1 g2
  · exact bwdPass_frame_below_N2 cfg ssrc _ k gE m ψfp f n g1 hn

/-- C10 witness: the broadcast consequence instantiated on the concrete
one-cell problem at direction 0, face 0, group slots 0 and 1. -/
theorem forward_writes_broadcast_groups_witness :
    (transport_sweep1d cfgTriv vacAcc vacAcc 1 (some zeroArr2) zeroArr2 st1Zero).st.psi 0 0 0
      = (transport_sweep1d cfgTriv vacAcc vacAcc 1 (some zeroArr2) zeroArr2 st1Zero).st.psi 0 0 1
    ∧ (transport_sweep1d cfgTriv vacAcc vacAcc 1 (some zeroArr2) zeroArr2 st1Zero).st.psi 0 0 0
      = fwdPass cfgTriv zeroArr2 ((some zeroArr2).getD (fun _ _ => 0)) 1 vacAcc (cfgTriv.groups - 1)
          (sweepGroupsUpto cfgTriv zeroArr2 ((some zeroArr2).getD (fun _ _ => 0)) 1 vacAcc vacAcc
            (cfgTriv.groups - 1) st1Zero).psi 0 0 0 :=
  forward_writes_broadcast_groups cfgTriv vacAcc vacAcc 1 (some zeroArr2) zeroArr2 st1Zero
    (by norm_num [cfgTriv]) 0 (by norm_num [cfgTriv]) 0 (by norm_num [cfgTriv]) 0 1

/-! ## Claim C8 -/

theorem innerLoop_diverge (cfg : Cfg1) (gW gE : BAcc1) (k eps : ℚ) :
    ∀ (r : ℕ) (s : Solver1), 1 ≤ r →
    (∀ j, j + 1 < r →
      sqrtGtQ ((transport_sweep1d cfg gW gE k s.fsrc s.ssrc
        (sweepStIter cfg gW gE k s.fsrc s.ssrc j s.st)).fluxSum / cfg.nx) eps = true) →
    innerLoop cfg gW gE k eps r s
      = (none, { s with st := sweepStIter cfg gW gE k s.fsrc s.ssrc r s.st }) := by
  intro r
  induction r with
  | zero => intro s h1; omega
  | succ r ih =>
    intro s h1 hdiv
    cases r with
    | zero => rfl
    | succ r' =>
      have hg0 : sqrtGtQ ((transport_sweep1d cfg gW gE k s.fsrc s.ssrc s.st).fluxSum
          / cfg.nx) eps = true := hdiv 0 (by omega)
      show (if sqrtGtQ ((transport_sweep1d cfg gW gE k s.fsrc s.ssrc s.st).fluxSum / cfg.nx) eps
          then innerLoop cfg gW gE k eps (r'+1)
            { s with st := (transport_sweep1d cfg gW gE k s.fsrc s.ssrc s.st).st }
          else (some ((transport_sweep1d cfg gW gE k s.fsrc s.ssrc s.st).fs,
            (transport_sweep1d cfg gW gE k s.fsrc s.ssrc s.st).fsSum),
            { s with st := (transport_sweep1d cfg gW gE k s.fsrc s.ssrc s.st).st })) = _
      rw [if_pos hg0]
      exact ih { s with st := (transport_sweep1d cfg gW gE k s.fsrc s.ssrc s.st).st }
        (by omega) (fun j hj => hdiv (j+1) (by omega))

theorem outerLoop_aborted (cfg : Cfg1) (gW gE : BAcc1) (eps : ℚ) (maxiter : ℕ)
    (s s' : Solver1)
    (hinner : innerLoop cfg gW gE s.k eps maxiter s = (none, s')) :
    ∀ r, outerLoop cfg gW gE eps maxiter r s = (false, s') := by
  intro r
  have hbody : outerBody cfg gW gE eps maxiter s = .aborted s' := by
    unfold outerBody
    rw [hinner]
  rcases r with _ | _ | r <;> simp only [outerLoop, hbody]

theorem solve2dLoop_diverge (cfg : Cfg2) (ssrc : Arr3) (k : Option ℚ) (eps : ℚ) :
    ∀ (r : ℕ) (st : St2), 1 ≤ r →
    (∀ j, j + 1 < r →
      sqrtGtQ ((transport_sweep2d cfg ssrc k (sweep2dStIter cfg ssrc k j st)).1
        / cfg.nx / cfg.nx) eps = true) →
    solve2dLoop cfg ssrc k eps r st = (false, sweep2dStIter cfg ssrc k r st) := by
  intro r
  induction r with
  | zero => intro st h1; omega
  | succ r ih =>
    intro st h1 hdiv
    cases r with
    | zero => rfl
    | succ r' =>
      have hg0 : sqrtGtQ ((transport_sweep2d cfg ssrc k st).1 / cfg.nx / cfg.nx) eps = true :=
        hdiv 0 (by omega)
      show (if sqrtGtQ ((transport_sweep2d cfg ssrc k st).1 / cfg.nx / cfg.nx) eps
          then solve2dLoop cfg ssrc k eps (r'+1) (transport_sweep2d cfg ssrc k st).2
          else (true, (transport_sweep2d cfg ssrc k st).2)) = _
      rw [if_pos hg0]
      exact ih (transport_sweep2d cfg ssrc k st).2 (by omega)
        (fun j hj => hdiv (j+1) (by omega))

/-- C8 (confirmed): in both solvers, when every inner sweep up to the
iteration cap leaves the flux rms above eps, solve returns the failure status
False (no exception: the model is a total function), and the state it returns
is exactly the mesh state after the maxiter sweeps performed, with the last
computed flux and angular flux readable by the caller. -/
theorem solve_nonconvergence_reports_failure :
    (∀ (cfg : Cfg1) (gW gE : BAcc1) (eps : ℚ) (m : ℕ) (s : Solver1), 1 ≤ m →
      (∀ j, j + 1 < m →
        sqrtGtQ ((transport_sweep1d cfg gW gE s.k s.fsrc s.ssrc
          (sweepStIter cfg gW gE s.k s.fsrc s.ssrc j s.st)).fluxSum / cfg.nx) eps = true) →
      solve1d cfg gW gE eps m s
        = (false, { s with st := sweepStIter cfg gW gE s.k s.fsrc s.ssrc m s.st }))
    ∧ (∀ (cfg : Cfg2) (ssrc : Arr3) (k : Option ℚ) (eps : ℚ) (m : ℕ) (st : St2), 1 ≤ m →
      (∀ j, j + 1 < m →
        sqrtGtQ ((transport_sweep2d cfg ssrc k (sweep2dStIter cfg ssrc k j st)).1
          / cfg.nx / cfg.nx) eps = true) →
      solve2d cfg ssrc k eps m st = (false, sweep2dStIter cfg ssrc k m st)) := by
  constructor
  · intro cfg gW gE eps m s hm hdiv
    unfold solve1d
    exact outerLoop_aborted cfg gW gE eps m s _
      (innerLoop_diverge cfg gW gE s.k eps m s hm hdiv) m
  · intro cfg ssrc k eps m st hm hdiv
    unfold solve2d
    exact solve2dLoop_diverge cfg ssrc k eps m st hm hdiv

/-- C8 witness: both parts instantiated at maxiter 1, where the divergence
hypothesis is vacuous (the abort happens right after the first sweep). -/
theorem solve_nonconvergence_reports_failure_witness :
    solve1d cfgTriv vacAcc vacAcc (1/1000) 1 s0C3
      = (false, { s0C3 with st := sweepStIter cfgTriv vacAcc vacAcc s0C3.k s0C3.fsrc s0C3.ssrc 1 s0C3.st })
    ∧ solve2d cfg2Triv zeroArr3 (some 1) (1/1000) 1 st2Zero
      = (false, sweep2dStIter cfg2Triv zeroArr3 (some 1) 1 st2Zero) :=
  ⟨solve_nonconvergence_reports_failure.1 cfgTriv vacAcc vacAcc (1/1000) 1 s0C3
      (by omega) (fun j hj => absurd hj (by omega)),
    solve_nonconvergence_reports_failure.2 cfg2Triv zeroArr3 (some 1) (1/1000) 1 st2Zero
      (by omega) (fun j hj => absurd hj (by omega))⟩

/-! ## Claim C3 -/

theorem transport_sweep1d_fs_char (cfg : Cfg1) (gW gE : BAcc1) (k : ℚ)
    (fsrc : Option Arr2) (ssrc : Arr2) (st : St1) :
    (transport_sweep1d cfg gW gE k fsrc ssrc st).fs
      = (match fsrc with
        | some _ => some (cfg.calcFS (transport_sweep1d cfg gW gE k fsrc ssrc st).st.flux)
        | none => none)
    ∧ (transport_sweep1d cfg gW gE k fsrc ssrc st).fsSum
      = (match fsrc with
        | some fs0 => l2sum1d cfg.nx cfg.groups
            (cfg.calcFS (transport_sweep1d cfg gW gE k fsrc ssrc st).st.flux) fs0
        | none => 0) := by
  rcases fsrc with _ | fs0 <;> exact ⟨rfl, rfl⟩

theorem innerLoop_some_char (cfg : Cfg1) (gW gE : BAcc1) (k eps : ℚ) :
    ∀ (r : ℕ) (s : Solver1) (p : Option Arr2 × ℚ) (s' : Solver1),
      innerLoop cfg gW gE k eps r s = (some p, s') →
      s'.fsrc = s.fsrc ∧ s'.ssrc = s.ssrc ∧ s'.k = s.k
      ∧ p = (match s.fsrc with
        | some fs0 => (some (cfg.calcFS s'.st.flux),
            l2sum1d cfg.nx cfg.groups (cfg.calcFS s'.st.flux) fs0)
        | none => (none, 0)) := by
  intro r
  induction r with
  | zero =>
    intro s p s' h
    exact absurd h (by simp [innerLoop])
  | succ r ih =>
    cases r with
    | zero =>
      intro s p s' h
      exact absurd h (by simp [innerLoop])
    | succ r' =>
      intro s p s' h
      have hunf : innerLoop cfg gW gE k eps (r'+1+1) s
          = (if sqrtGtQ ((transport_sweep1d cfg gW gE k s.fsrc s.ssrc s.st).fluxSum / cfg.nx) eps
            then innerLoop cfg gW gE k eps (r'+1)
              { s with st := (transport_sweep1d cfg gW gE k s.fsrc s.ssrc s.st).st }
            else (some ((transport_sweep1d cfg gW gE k s.fsrc s.ssrc s.st).fs,
              (transport_sweep1d cfg gW gE k s.fsrc s.ssrc s.st).fsSum),
              { s with st := (transport_sweep1d cfg gW gE k s.fsrc s.ssrc s.st).st })) := rfl
      rw [hunf] at h
      by_cases hg : sqrtGtQ ((transport_sweep1d cfg gW gE k s.fsrc s.ssrc s.st).fluxSum / cfg.nx) eps = true
      · rw [if_pos hg] at h
        exact ih { s with st := (transport_sweep1d cfg gW gE k s.fsrc s.ssrc s.st).st } p s' h
      · rw [if_neg hg] at h
        injection h with h1 h2
        injection h1 with h1
        subst h2
        refine ⟨rfl, rfl, rfl, ?_⟩
        rw [← h1]
        obtain ⟨hfs, hfsSum⟩ := transport_sweep1d_fs_char cfg gW gE k s.fsrc s.ssrc s.st
        rw [hfs, hfsSum]
        rcases s.fsrc with _ | fs0 <;> rfl

/-- C3 (confirmed): when the inner loop converges with an active fission
source, the outer iteration of solve sets k_new = k_old * sum(fs_new) /
sum(fs_old) and kdiff = abs(k_new - k_old) / k_new, replaces the stored
fission source and k (and recomputes the scatter source), and that iteration
exits the outer loop, returning the converged status, exactly when both the
fission-source rms difference sqrt(fsSum/nx) and kdiff are within eps
(otherwise it loops with the updated state). -/
theorem outer_iteration_k_update (cfg : Cfg1) (gW gE : BAcc1) (eps : ℚ) (m r : ℕ)
    (s : Solver1) (fs0 : Arr2) (hfs : s.fsrc = some fs0) (hr : 1 < r)
    (hconv : (innerLoop cfg gW gE s.k eps m s).1.isSome = true) :
    let s' := (innerLoop cfg gW gE s.k eps m s).2
    let fs1 := cfg.calcFS s'.st.flux
    let fsSum := l2sum1d cfg.nx cfg.groups fs1 fs0
    let knew := s.k * arrSum cfg fs1 / arrSum cfg fs0
    let kd := |knew - s.k| / knew
    let s2 : Solver1 := { st := s'.st, fsrc := some fs1, ssrc := cfg.calcSS s'.st.flux, k := knew }
    (outerLoop cfg gW gE eps m r s
      = if sqrtGtQ (fsSum / cfg.nx) eps || decide (eps < kd)
        then outerLoop cfg gW gE eps m (r-1) s2
        else (true, s2))
    ∧ ((sqrtGtQ (fsSum / cfg.nx) eps || decide (eps < kd)) = false
        ↔ Real.sqrt ((fsSum / (cfg.nx : ℚ) : ℚ) : ℝ) ≤ (eps : ℝ) ∧ kd ≤ eps) := by
  intro s' fs1 fsSum knew kd s2
  obtain ⟨p, hp⟩ : ∃ p, (innerLoop cfg gW gE s.k eps m s).1 = some p :=
    Option.isSome_iff_exists.mp hconv
  have hIL : innerLoop cfg gW gE s.k eps m s = (some p, s') := by
    rw [← hp]
  obtain ⟨hfsrc', hssrc', hk', hpEq⟩ := innerLoop_some_char cfg gW gE s.k eps m s p s' hIL
  rw [hfs] at hpEq
  have hbody : outerBody cfg gW gE eps m s
      = .updated s2 (sqrtGtQ (fsSum / cfg.nx) eps) (decide (eps < kd)) := by
    unfold outerBody
    rw [hIL, hpEq]
    show OuterStep.updated (outerUpdate cfg eps s' (some fs1) fsSum).1
      (outerUpdate cfg eps s' (some fs1) fsSum).2.1
      (outerUpdate cfg eps s' (some fs1) fsSum).2.2 = _
    unfold outerUpdate
    rw [hfsrc', hfs]
    show OuterStep.updated
      { st := s'.st, fsrc := some fs1, ssrc := cfg.calcSS s'.st.flux,
        k := s'.k * arrSum cfg fs1 / arrSum cfg fs0 }
      (sqrtGtQ (fsSum / cfg.nx) eps)
      (decide (eps < |s'.k * arrSum cfg fs1 / arrSum cfg fs0 - s'.k|
        / (s'.k * arrSum cfg fs1 / arrSum cfg fs0))) = _
    rw [hk']
  obtain ⟨r2, hr2⟩ : ∃ r2, r = r2 + 2 := ⟨r - 2, by omega⟩
  subst hr2
  constructor
  · show (match outerBody cfg gW gE eps m s with
      | .aborted s' => (false, s')
      | .updated s2 g1 g2 =>
        if g1 || g2 then outerLoop cfg gW gE eps m (r2+1) s2 else (true, s2)) = _
    rw [hbody]
    have hr1 : r2 + 2 - 1 = r2 + 1 := by omega
    rw [hr1]
  · rw [Bool.or_eq_false_iff, decide_eq_false_iff_not, not_lt, sqrtGtQ_eq_false_iff]

/-- C3 witness: one concrete outer iteration on the one-cell eigenvalue
problem cfgC3, whose inner loop converges after a single sweep at the loose
tolerance eps = 10. -/
theorem outer_iteration_k_update_witness :
    (let s' := (innerLoop cfgC3 vacAcc vacAcc s0C3.k 10 2 s0C3).2
     let fs1 := cfgC3.calcFS s'.st.flux
     let fsSum := l2sum1d cfgC3.nx cfgC3.groups fs1 (fun _ _ => 2)
     let knew := s0C3.k * arrSum cfgC3 fs1 / arrSum cfgC3 (fun _ _ => 2)
     let kd := |knew - s0C3.k| / knew
     let s2 : Solver1 := { st := s'.st, fsrc := some fs1, ssrc := cfgC3.calcSS s'.st.flux, k := knew }
     (outerLoop cfgC3 vacAcc vacAcc 10 2 2 s0C3
       = if sqrtGtQ (fsSum / cfgC3.nx) 10 || decide ((10:ℚ) < kd)
         then outerLoop cfgC3 vacAcc vacAcc 10 2 (2-1) s2
         else (true, s2))
     ∧ ((sqrtGtQ (fsSum / cfgC3.nx) 10 || decide ((10:ℚ) < kd)) = false
         ↔ Real.sqrt ((fsSum / (cfgC3.nx : ℚ) : ℚ) : ℝ) ≤ ((10:ℚ) : ℝ) ∧ kd ≤ 10)) :=
  outer_iteration_k_update cfgC3 vacAcc vacAcc 10 2 2 s0C3 (fun _ _ => 2) rfl (by omega)
    (by
      have habs : |(-(1/2) : ℚ)| = 1/2 := by norm_num
      have hflux : (transport_sweep1d cfgC3 vacAcc vacAcc 1 (some (fun _ _ => 2))
          zeroArr2 st1Zero).fluxSum = 1 := by
        norm_num [transport_sweep1d, sweepGroupsUpto, groupBody1, fwdPass, bwdPass,
          bwdOneDir, bwdCellStep, fluxUpdate1, fluxRow, getSource1d, upd3, upd2,
          vacAcc, st1Zero, zeroArr2, zeroPsi1, cfgC3, nodeA, loopN_one, loopN_zero,
          sumRange_one, sumRange_zero, l2sum1d, relDiffSq, habs]
      have h2 : innerLoop cfgC3 vacAcc vacAcc s0C3.k 10 2 s0C3
          = (if sqrtGtQ ((transport_sweep1d cfgC3 vacAcc vacAcc s0C3.k s0C3.fsrc s0C3.ssrc
              s0C3.st).fluxSum / cfgC3.nx) 10
            then innerLoop cfgC3 vacAcc vacAcc s0C3.k 10 1
              { s0C3 with st := (transport_sweep1d cfgC3 vacAcc vacAcc s0C3.k s0C3.fsrc
                s0C3.ssrc s0C3.st).st }
            else (some ((transport_sweep1d cfgC3 vacAcc vacAcc s0C3.k s0C3.fsrc s0C3.ssrc
                s0C3.st).fs,
              (transport_sweep1d cfgC3 vacAcc vacAcc s0C3.k s0C3.fsrc s0C3.ssrc s0C3.st).fsSum),
              { s0C3 with st := (transport_sweep1d cfgC3 vacAcc vacAcc s0C3.k s0C3.fsrc
                s0C3.ssrc s0C3.st).st })) := rfl
      rw [h2]
      have hg : sqrtGtQ ((transport_sweep1d cfgC3 vacAcc vacAcc s0C3.k s0C3.fsrc s0C3.ssrc
          s0C3.st).fluxSum / cfgC3.nx) 10 = false := by
        have hfl : (transport_sweep1d cfgC3 vacAcc vacAcc s0C3.k s0C3.fsrc s0C3.ssrc
            s0C3.st).fluxSum = 1 := hflux
        rw [hfl]
        norm_num [sqrtGtQ, cfgC3]
      rw [hg]
      rfl)

/-! ## Claim C2: column-pass characterization -/

theorem colY_congr (cfg : Cfg2) (ssrc : Arr3) (k : Option ℚ) (rf i n g : ℕ)
    (mux muy : ℚ) (jf : ℕ → ℕ) (ψ1 ψ2 : Psi2) (ψy0 : ℚ)
    (h : ∀ t, ψ1 rf (jf t) n g = ψ2 rf (jf t) n g) :
    ∀ t, colY cfg ssrc k rf i n g mux muy jf ψ1 ψy0 t
      = colY cfg ssrc k rf i n g mux muy jf ψ2 ψy0 t := by
  intro t
  induction t with
  | zero => rfl
  | succ t ih =>
    show 2 * ddBar cfg ssrc k i (jf t) g mux muy (ψ1 rf (jf t) n g) _ - _ = _
    rw [ih, h t]
    rfl

theorem colY_shift (cfg : Cfg2) (ssrc : Arr3) (k : Option ℚ) (rf i n g : ℕ)
    (mux muy : ℚ) (jf : ℕ → ℕ) (ψ : Psi2) (ψy0 : ℚ) :
    ∀ t, colY cfg ssrc k rf i n g mux muy jf ψ ψy0 (t+1)
      = colY cfg ssrc k rf i n g mux muy (fun u => jf (u+1)) ψ
          (2 * ddBar cfg ssrc k i (jf 0) g mux muy (ψ rf (jf 0) n g) ψy0 - ψy0) t := by
  intro t
  induction t with
  | zero => rfl
  | succ t ih =>
    show 2 * ddBar cfg ssrc k i (jf (t+1)) g mux muy (ψ rf (jf (t+1)) n g)
        (colY cfg ssrc k rf i n g mux muy jf ψ ψy0 (t+1)) - _ = _
    rw [ih]
    rfl

theorem colLoop_spec (cfg : Cfg2) (ssrc : Arr3) (k : Option ℚ) (rf wf i n g : ℕ)
    (mux muy : ℚ) (hrw : rf ≠ wf) (jf : ℕ → ℕ) :
    ∀ (r t0 : ℕ) (ψ : Psi2) (ψy : ℚ),
      (∀ w x y z, (w ≠ wf ∨ y ≠ n ∨ z ≠ g ∨ (∀ t, t < r → x ≠ jf (t0+t))) →
        (loopN (fun t p => ddStep cfg ssrc k rf wf i (jf t) n g mux muy p) t0 r (ψ, ψy)).1 w x y z
          = ψ w x y z)
      ∧ (∀ t, t < r → (∀ t', t < t' → t' < r → jf (t0+t') ≠ jf (t0+t)) →
        (loopN (fun t p => ddStep cfg ssrc k rf wf i (jf t) n g mux muy p) t0 r (ψ, ψy)).1
            wf (jf (t0+t)) n g
          = 2 * ddBar cfg ssrc k i (jf (t0+t)) g mux muy (ψ rf (jf (t0+t)) n g)
              (colY cfg ssrc k rf i n g mux muy (fun u => jf (t0+u)) ψ ψy t)
            - ψ rf (jf (t0+t)) n g)
      ∧ (loopN (fun t p => ddStep cfg ssrc k rf wf i (jf t) n g mux muy p) t0 r (ψ, ψy)).2
          = colY cfg ssrc k rf i n g mux muy (fun u => jf (t0+u)) ψ ψy r := by
  intro r
  induction r with
  | zero =>
    intro t0 ψ ψy
    refine ⟨fun w x y z _ => rfl, fun t ht => absurd ht (by omega), rfl⟩
  | succ r ih =>
    intro t0 ψ ψy
    have hstep : loopN (fun t p => ddStep cfg ssrc k rf wf i (jf t) n g mux muy p) t0 (r+1) (ψ, ψy)
        = loopN (fun t p => ddStep cfg ssrc k rf wf i (jf t) n g mux muy p) (t0+1) r
            (ddStep cfg ssrc k rf wf i (jf t0) n g mux muy (ψ, ψy)) := rfl
    set v1 : ℚ := 2 * ddBar cfg ssrc k i (jf t0) g mux muy (ψ rf (jf t0) n g) ψy
      - ψ rf (jf t0) n g with hv1
    set ψ1 : Psi2 := upd4 ψ wf (jf t0) n g v1 with hψ1
    set ψy1 : ℚ := 2 * ddBar cfg ssrc k i (jf t0) g mux muy (ψ rf (jf t0) n g) ψy - ψy with hψy1
    have hdd : ddStep cfg ssrc k rf wf i (jf t0) n g mux muy (ψ, ψy) = (ψ1, ψy1) := rfl
    rw [hdd] at hstep
    obtain ⟨ihFrame, ihWrite, ihCarry⟩ := ih (t0+1) ψ1 ψy1
    have hψ1rf : ∀ x, ψ1 rf x n g = ψ rf x n g := by
      intro x
      rw [hψ1]
      unfold upd4
      rw [if_neg (by tauto)]
    have hcongr : ∀ t, colY cfg ssrc k rf i n g mux muy (fun u => jf (t0+1+u)) ψ1 ψy1 t
        = colY cfg ssrc k rf i n g mux muy (fun u => jf (t0+1+u)) ψ ψy1 t :=
      colY_congr cfg ssrc k rf i n g mux muy _ ψ1 ψ ψy1 (fun t => hψ1rf (jf (t0+1+t)))
    have hshift : ∀ t, colY cfg ssrc k rf i n g mux muy (fun u => jf (t0+u)) ψ ψy (t+1)
        = colY cfg ssrc k rf i n g mux muy (fun u => jf (t0+1+u)) ψ ψy1 t := by
      intro t
      have := colY_shift cfg ssrc k rf i n g mux muy (fun u => jf (t0+u)) ψ ψy t
      rw [this]
      have harg : (fun u => jf (t0+(u+1))) = (fun u => jf (t0+1+u)) := by
        funext u
        congr 1
        omega
      rw [show (2 * ddBar cfg ssrc k i (jf (t0+0)) g mux muy (ψ rf (jf (t0+0)) n g) ψy - ψy)
          = ψy1 from rfl]
      rw [harg]
    refine ⟨?_, ?_, ?_⟩
    · intro w x y z hc
      rw [hstep]
      have hc' : w ≠ wf ∨ y ≠ n ∨ z ≠ g ∨ (∀ t, t < r → x ≠ jf (t0+1+t)) := by
        rcases hc with h | h | h | h
        · exact Or.inl h
        · exact Or.inr (Or.inl h)
        · exact Or.inr (Or.inr (Or.inl h))
        · refine Or.inr (Or.inr (Or.inr ?_))
          intro t ht
          have := h (1+t) (by omega)
          rwa [show t0+(1+t) = t0+1+t by omega] at this
      rw [ihFrame w x y z hc']
      rw [hψ1]
      unfold upd4
      rw [if_neg ?_]
      rcases hc with h | h | h | h
      · tauto
      · tauto
      · tauto
      · have := h 0 (by omega)
        rw [show t0+0 = t0 by omega] at this
        tauto
    · intro t ht hinj
      rw [hstep]
      cases t with
      | zero =>
        have hfr : (∀ t, t < r → jf (t0+0) ≠ jf (t0+1+t)) := by
          intro t htr
          have := hinj (1+t) (by omega) (by omega)
          rw [show t0+(1+t) = t0+1+t by omega] at this
          exact this.symm
        rw [ihFrame wf (jf (t0+0)) n g (Or.inr (Or.inr (Or.inr hfr)))]
        rw [hψ1]
        unfold upd4
        rw [show t0+0 = t0 by omega, if_pos ⟨rfl, rfl, rfl, rfl⟩]
        exact hv1
      | succ t =>
        have hinj' : ∀ t', t < t' → t' < r → jf (t0+1+t') ≠ jf (t0+1+t) := by
          intro t' h1 h2
          have := hinj (1+t') (by omega) (by omega)
          rw [show t0+(1+t') = t0+1+t' by omega, show t0+(t+1) = t0+1+t by omega] at this
          exact this
        have := ihWrite t (by omega) hinj'
        rw [show t0+1+t = t0+(t+1) by omega] at this
        rw [this, hψ1rf (jf (t0+(t+1)))]
        rw [show t0+(t+1) = t0+1+t by omega, hcongr t, ← hshift t,
          show t0+1+t = t0+(t+1) by omega]
    · rw [hstep, ihCarry, hcongr r, ← hshift r]

theorem ascUpto_mono (row : ℕ → Psi2 → Psi2) (n g : ℕ)
    (hframe : ∀ i ψ w x y z, (w ≠ i+1 ∨ y ≠ n ∨ z ≠ g) → row i ψ w x y z = ψ w x y z) :
    ∀ (d t : ℕ) (ψ0 : Psi2) (w x y z : ℕ), (y ≠ n ∨ z ≠ g ∨ w ≤ t) →
      loopN row 0 (t+d) ψ0 w x y z = loopN row 0 t ψ0 w x y z := by
  intro d
  induction d with
  | zero => intro t ψ0 w x y z h; rfl
  | succ d ih =>
    intro t ψ0 w x y z h
    rw [show t+(d+1) = (t+d)+1 by omega, loopN_succ_right]
    simp only [Nat.zero_add]
    rw [hframe (t+d) _ w x y z ?_, ih t ψ0 w x y z h]
    rcases h with h | h | h
    · tauto
    · tauto
    · left; omega

theorem descUpto_mono (row : ℕ → Psi2 → Psi2) (nx n g : ℕ)
    (hframe : ∀ i ψ w x y z, (w ≠ i ∨ y ≠ n ∨ z ≠ g) → row i ψ w x y z = ψ w x y z) :
    ∀ (d t : ℕ), t + d ≤ nx → ∀ (ψ0 : Psi2) (w x y z : ℕ), (y ≠ n ∨ z ≠ g ∨ nx - t ≤ w) →
      loopN (fun s ψ => row (nx - 1 - s) ψ) 0 (t+d) ψ0 w x y z
        = loopN (fun s ψ => row (nx - 1 - s) ψ) 0 t ψ0 w x y z := by
  intro d
  induction d with
  | zero => intro t _ ψ0 w x y z h; rfl
  | succ d ih =>
    intro t htd ψ0 w x y z h
    rw [show t+(d+1) = (t+d)+1 by omega, loopN_succ_right]
    simp only [Nat.zero_add]
    rw [hframe (nx - 1 - (t+d)) _ w x y z ?_, ih t (by omega) ψ0 w x y z h]
    rcases h with h | h | h
    · tauto
    · tauto
    · left; omega

theorem q1RowStep_frame (cfg : Cfg2) (ssrc : Arr3) (k : Option ℚ) (n g : ℕ) (mux muy : ℚ) :
    ∀ i ψ w x y z, (w ≠ i+1 ∨ y ≠ n ∨ z ≠ g) →
      q1RowStep cfg ssrc k n g mux muy i ψ w x y z = ψ w x y z := by
  intro i ψ w x y z h
  exact (colLoop_spec cfg ssrc k i (i+1) i n g mux muy (by omega) (fun u => u)
    cfg.ny 0 ψ (cfg.gN ψ i n g)).1 w x y z (by tauto)

/-- C2 characterization, quadrant 1 (sweep from the top left): the west faces
hold the west-accessor seed, and in every column i there is a sequence Y of
incoming y fluxes, seeded from the north accessor at the state the column
pass starts from, such that every visited cell obeys the claimed
diamond-difference relations: the outgoing x face is 2 psi_bar - psi_in_x
with psi_in_x the already-final value at face i, and the next incoming y flux
is 2 psi_bar - psi_in_y. -/
theorem q1Pass_spec (cfg : Cfg2) (ssrc : Arr3) (k : Option ℚ) (g n : ℕ) (ψ0 : Psi2) :
    (∀ j, j < cfg.ny → q1Pass cfg ssrc k g n ψ0 0 j n g = cfg.gW ψ0 j n g)
    ∧ ∀ i, i < cfg.nx → ∃ Y : ℕ → ℚ,
      Y 0 = cfg.gN (q1Upto cfg ssrc k g n i ψ0) i n g
      ∧ ∀ j, j < cfg.ny →
        (q1Pass cfg ssrc k g n ψ0 (i+1) j n g
          = 2 * ddBar cfg ssrc k i j g |cfg.muxs n| |cfg.muys n|
              (q1Pass cfg ssrc k g n ψ0 i j n g) (Y j)
            - q1Pass cfg ssrc k g n ψ0 i j n g)
        ∧ (Y (j+1)
          = 2 * ddBar cfg ssrc k i j g |cfg.muxs n| |cfg.muys n|
              (q1Pass cfg ssrc k g n ψ0 i j n g) (Y j)
            - Y j) := by
  have hframe := q1RowStep_frame cfg ssrc k n g |cfg.muxs n| |cfg.muys n|
  have hmono := ascUpto_mono (q1RowStep cfg ssrc k n g |cfg.muxs n| |cfg.muys n|) n g hframe
  constructor
  · intro j hj
    have h0 : q1Pass cfg ssrc k g n ψ0 0 j n g = q1Upto cfg ssrc k g n 0 ψ0 0 j n g := by
      show q1Upto cfg ssrc k g n cfg.nx ψ0 0 j n g = _
      unfold q1Upto
      rw [show cfg.nx = 0 + cfg.nx by omega]
      exact hmono cfg.nx 0 _ 0 j n g (Or.inr (Or.inr (by omega)))
    rw [h0]
    show seedFace 0 cfg.ny n g (fun j => cfg.gW ψ0 j n g) ψ0 0 j n g = _
    unfold seedFace
    rw [if_pos ⟨rfl, hj, rfl, rfl⟩]
  · intro i hi
    refine ⟨colY cfg ssrc k i i n g |cfg.muxs n| |cfg.muys n| (fun u => u)
      (q1Upto cfg ssrc k g n i ψ0)
      (cfg.gN (q1Upto cfg ssrc k g n i ψ0) i n g), rfl, ?_⟩
    intro j hj
    have hstep : q1Upto cfg ssrc k g n (i+1) ψ0
        = q1RowStep cfg ssrc k n g |cfg.muxs n| |cfg.muys n| i (q1Upto cfg ssrc k g n i ψ0) := by
      unfold q1Upto
      rw [loopN_succ_right]
      simp only [Nat.zero_add]
    obtain ⟨hcF, hcW, hcC⟩ := colLoop_spec cfg ssrc k i (i+1) i n g
      |cfg.muxs n| |cfg.muys n| (by omega) (fun u => u) cfg.ny 0
      (q1Upto cfg ssrc k g n i ψ0) (cfg.gN (q1Upto cfg ssrc k g n i ψ0) i n g)
    have hwrite := hcW j hj (fun t' h1 h2 => by omega)
    simp only [Nat.zero_add] at hwrite
    have hmono1 : q1Pass cfg ssrc k g n ψ0 (i+1) j n g
        = q1Upto cfg ssrc k g n (i+1) ψ0 (i+1) j n g := by
      show q1Upto cfg ssrc k g n cfg.nx ψ0 (i+1) j n g = _
      unfold q1Upto
      rw [show cfg.nx = (i+1) + (cfg.nx - (i+1)) by omega]
      exact hmono (cfg.nx - (i+1)) (i+1) _ (i+1) j n g (Or.inr (Or.inr (by omega)))
    have hmono0 : q1Pass cfg ssrc k g n ψ0 i j n g
        = q1Upto cfg ssrc k g n i ψ0 i j n g := by
      show q1Upto cfg ssrc k g n cfg.nx ψ0 i j n g = _
      unfold q1Upto
      rw [show cfg.nx = i + (cfg.nx - i) by omega]
      exact hmono (cfg.nx - i) i _ i j n g (Or.inr (Or.inr (by omega)))
    constructor
    · rw [hmono1, hstep, hmono0]
      exact hwrite
    · show colY cfg ssrc k i i n g |cfg.muxs n| |cfg.muys n| (fun u => u) _ _ (j+1) = _
      rw [hmono0]
      rfl

theorem q2RowStep_frame (cfg : Cfg2) (ssrc : Arr3) (k : Option ℚ) (n g : ℕ) (mux muy : ℚ) :
    ∀ i ψ w x y z, (w ≠ i ∨ y ≠ n ∨ z ≠ g) →
      q2RowStep cfg ssrc k n g mux muy i ψ w x y z = ψ w x y z := by
  intro i ψ w x y z h
  exact (colLoop_spec cfg ssrc k (i+1) i i n g mux muy (by omega) (fun u => u)
    cfg.ny 0 ψ (cfg.gN ψ i n g)).1 w x y z (by tauto)

/-- C2 characterization, quadrant 2 (sweep from the top right): the east
faces hold the east-accessor seed, and in every column i (processed right to
left) there is a sequence Y of incoming y fluxes, seeded from the north
accessor at the state the column pass starts from, such that every visited
cell obeys the claimed relations with psi_in_x read at the already-final
face i+1 and the outgoing x flux written at face i. -/
theorem q2Pass_spec (cfg : Cfg2) (ssrc : Arr3) (k : Option ℚ) (g n : ℕ) (ψ0 : Psi2) :
    (∀ j, j < cfg.ny → q2Pass cfg ssrc k g n ψ0 cfg.nx j n g = cfg.gE ψ0 j n g)
    ∧ ∀ i, i < cfg.nx → ∃ Y : ℕ → ℚ,
      Y 0 = cfg.gN (q2Upto cfg ssrc k g n (cfg.nx - 1 - i) ψ0) i n g
      ∧ ∀ j, j < cfg.ny →
        (q2Pass cfg ssrc k g n ψ0 i j n g
          = 2 * ddBar cfg ssrc k i j g |cfg.muxs (n - 2*cfg.npq)| |cfg.muys (n - 2*cfg.npq)|
              (q2Pass cfg ssrc k g n ψ0 (i+1) j n g) (Y j)
            - q2Pass cfg ssrc k g n ψ0 (i+1) j n g)
        ∧ (Y (j+1)
          = 2 * ddBar cfg ssrc k i j g |cfg.muxs (n - 2*cfg.npq)| |cfg.muys (n - 2*cfg.npq)|
              (q2Pass cfg ssrc k g n ψ0 (i+1) j n g) (Y j)
            - Y j) := by
  have hframe := q2RowStep_frame cfg ssrc k n g
    |cfg.muxs (n - 2*cfg.npq)| |cfg.muys (n - 2*cfg.npq)|
  have hmono : ∀ t t', t ≤ t' → t' ≤ cfg.nx → ∀ w x y z, (y ≠ n ∨ z ≠ g ∨ cfg.nx - t ≤ w) →
      q2Upto cfg ssrc k g n t' ψ0 w x y z = q2Upto cfg ssrc k g n t ψ0 w x y z := by
    intro t t' h1 h2 w x y z hc
    obtain ⟨d, hd⟩ : ∃ d, t' = t + d := ⟨t' - t, by omega⟩
    subst hd
    unfold q2Upto
    exact descUpto_mono
      (q2RowStep cfg ssrc k n g |cfg.muxs (n - 2*cfg.npq)| |cfg.muys (n - 2*cfg.npq)|)
      cfg.nx n g hframe d t (by omega) _ w x y z hc
  constructor
  · intro j hj
    have h0 : q2Pass cfg ssrc k g n ψ0 cfg.nx j n g = q2Upto cfg ssrc k g n 0 ψ0 cfg.nx j n g :=
      hmono 0 cfg.nx (by omega) (by omega) cfg.nx j n g (Or.inr (Or.inr (by omega)))
    rw [h0]
    show seedFace cfg.nx cfg.ny n g (fun j => cfg.gE ψ0 j n g) ψ0 cfg.nx j n g = _
    unfold seedFace
    rw [if_pos ⟨rfl, hj, rfl, rfl⟩]
  · intro i hi
    refine ⟨colY cfg ssrc k (i+1) i n g
      |cfg.muxs (n - 2*cfg.npq)| |cfg.muys (n - 2*cfg.npq)| (fun u => u)
      (q2Upto cfg ssrc k g n (cfg.nx - 1 - i) ψ0)
      (cfg.gN (q2Upto cfg ssrc k g n (cfg.nx - 1 - i) ψ0) i n g), rfl, ?_⟩
    intro j hj
    have hstep : q2Upto cfg ssrc k g n ((cfg.nx - 1 - i) + 1) ψ0
        = q2RowStep cfg ssrc k n g
            |cfg.muxs (n - 2*cfg.npq)| |cfg.muys (n - 2*cfg.npq)| i
            (q2Upto cfg ssrc k g n (cfg.nx - 1 - i) ψ0) := by
      unfold q2Upto
      rw [loopN_succ_right]
      simp only [Nat.zero_add]
      rw [show cfg.nx - 1 - (cfg.nx - 1 - i) = i by omega]
    obtain ⟨hcF, hcW, hcC⟩ := colLoop_spec cfg ssrc k (i+1) i i n g
      |cfg.muxs (n - 2*cfg.npq)| |cfg.muys (n - 2*cfg.npq)| (by omega) (fun u => u) cfg.ny 0
      (q2Upto cfg ssrc k g n (cfg.nx - 1 - i) ψ0)
      (cfg.gN (q2Upto cfg ssrc k g n (cfg.nx - 1 - i) ψ0) i n g)
    have hwrite := hcW j hj (fun t' h1 h2 => by omega)
    simp only [Nat.zero_add] at hwrite
    have hmono1 : q2Pass cfg ssrc k g n ψ0 i j n g
        = q2Upto cfg ssrc k g n ((cfg.nx - 1 - i) + 1) ψ0 i j n g :=
      hmono ((cfg.nx - 1 - i) + 1) cfg.nx (by omega) (by omega) i j n g
        (Or.inr (Or.inr (by omega)))
    have hmono0 : q2Pass cfg ssrc k g n ψ0 (i+1) j n g
        = q2Upto cfg ssrc k g n (cfg.nx - 1 - i) ψ0 (i+1) j n g :=
      hmono (cfg.nx - 1 - i) cfg.nx (by omega) (by omega) (i+1) j n g
        (Or.inr (Or.inr (by omega)))
    constructor
    · rw [hmono1, hstep, hmono0]
      exact hwrite
    · show colY cfg ssrc k (i+1) i n g _ _ (fun u => u) _ _ (j+1) = _
      rw [hmono0]
      rfl

theorem q3RowStep_frame (cfg : Cfg2) (ssrc : Arr3) (k : Option ℚ) (n g : ℕ) (mux muy : ℚ) :
    ∀ i ψ w x y z, (w ≠ i+1 ∨ y ≠ n ∨ z ≠ g) →
      q3RowStep cfg ssrc k n g mux muy i ψ w x y z = ψ w x y z := by
  intro i ψ w x y z h
  exact (colLoop_spec cfg ssrc k i (i+1) i n g mux muy (by omega) (fun u => cfg.ny - 1 - u)
    cfg.ny 0 ψ (cfg.gS ψ i n g)).1 w x y z (by tauto)

/-- C2 characterization, quadrant 3 (sweep from the bottom left): the west
faces hold the west-accessor seed; every column i carries a sequence Y of
incoming y fluxes, seeded from the south accessor at the state the column
pass starts from, with the cells visited bottom-up (step u visits row
ny-1-u) and obeying the claimed relations. -/
theorem q3Pass_spec (cfg : Cfg2) (ssrc : Arr3) (k : Option ℚ) (g n : ℕ) (ψ0 : Psi2) :
    (∀ j, j < cfg.ny → q3Pass cfg ssrc k g n ψ0 0 j n g = cfg.gW ψ0 j n g)
    ∧ ∀ i, i < cfg.nx → ∃ Y : ℕ → ℚ,
      Y 0 = cfg.gS (q3Upto cfg ssrc k g n i ψ0) i n g
      ∧ ∀ u, u < cfg.ny →
        (q3Pass cfg ssrc k g n ψ0 (i+1) (cfg.ny - 1 - u) n g
          = 2 * ddBar cfg ssrc k i (cfg.ny - 1 - u) g
              |cfg.muxs (n - cfg.npq)| |cfg.muys (n - cfg.npq)|
              (q3Pass cfg ssrc k g n ψ0 i (cfg.ny - 1 - u) n g) (Y u)
            - q3Pass cfg ssrc k g n ψ0 i (cfg.ny - 1 - u) n g)
        ∧ (Y (u+1)
          = 2 * ddBar cfg ssrc k i (cfg.ny - 1 - u) g
              |cfg.muxs (n - cfg.npq)| |cfg.muys (n - cfg.npq)|
              (q3Pass cfg ssrc k g n ψ0 i (cfg.ny - 1 - u) n g) (Y u)
            - Y u) := by
  have hframe := q3RowStep_frame cfg ssrc k n g
    |cfg.muxs (n - cfg.npq)| |cfg.muys (n - cfg.npq)|
  have hmono : ∀ t t', t ≤ t' → ∀ w x y z, (y ≠ n ∨ z ≠ g ∨ w ≤ t) →
      q3Upto cfg ssrc k g n t' ψ0 w x y z = q3Upto cfg ssrc k g n t ψ0 w x y z := by
    intro t t' h1 w x y z hc
    obtain ⟨d, hd⟩ : ∃ d, t' = t + d := ⟨t' - t, by omega⟩
    subst hd
    unfold q3Upto
    exact ascUpto_mono
      (q3RowStep cfg ssrc k n g |cfg.muxs (n - cfg.npq)| |cfg.muys (n - cfg.npq)|)
      n g hframe d t _ w x y z hc
  constructor
  · intro j hj
    have h0 : q3Pass cfg ssrc k g n ψ0 0 j n g = q3Upto cfg ssrc k g n 0 ψ0 0 j n g :=
      hmono 0 cfg.nx (by omega) 0 j n g (Or.inr (Or.inr (by omega)))
    rw [h0]
    show seedFace 0 cfg.ny n g (fun j => cfg.gW ψ0 j n g) ψ0 0 j n g = _
    unfold seedFace
    rw [if_pos ⟨rfl, hj, rfl, rfl⟩]
  · intro i hi
    refine ⟨colY cfg ssrc k i i n g
      |cfg.muxs (n - cfg.npq)| |cfg.muys (n - cfg.npq)| (fun u => cfg.ny - 1 - u)
      (q3Upto cfg ssrc k g n i ψ0)
      (cfg.gS (q3Upto cfg ssrc k g n i ψ0) i n g), rfl, ?_⟩
    intro u hu
    have hstep : q3Upto cfg ssrc k g n (i+1) ψ0
        = q3RowStep cfg ssrc k n g
            |cfg.muxs (n - cfg.npq)| |cfg.muys (n - cfg.npq)| i
            (q3Upto cfg ssrc k g n i ψ0) := by
      unfold q3Upto
      rw [loopN_succ_right]
      simp only [Nat.zero_add]
    obtain ⟨hcF, hcW, hcC⟩ := colLoop_spec cfg ssrc k i (i+1) i n g
      |cfg.muxs (n - cfg.npq)| |cfg.muys (n - cfg.npq)| (by omega)
      (fun u => cfg.ny - 1 - u) cfg.ny 0
      (q3Upto cfg ssrc k g n i ψ0) (cfg.gS (q3Upto cfg ssrc k g n i ψ0) i n g)
    have hwrite := hcW u hu (fun t' h1 h2 => by omega)
    simp only [Nat.zero_add] at hwrite
    have hmono1 : q3Pass cfg ssrc k g n ψ0 (i+1) (cfg.ny - 1 - u) n g
        = q3Upto cfg ssrc k g n (i+1) ψ0 (i+1) (cfg.ny - 1 - u) n g :=
      hmono (i+1) cfg.nx (by omega) (i+1) (cfg.ny - 1 - u) n g (Or.inr (Or.inr (by omega)))
    have hmono0 : q3Pass cfg ssrc k g n ψ0 i (cfg.ny - 1 - u) n g
        = q3Upto cfg ssrc k g n i ψ0 i (cfg.ny - 1 - u) n g :=
      hmono i cfg.nx (by omega) i (cfg.ny - 1 - u) n g (Or.inr (Or.inr (by omega)))
    constructor
    · rw [hmono1, hstep, hmono0]
      exact hwrite
    · show colY cfg ssrc k i i n g _ _ (fun u => cfg.ny - 1 - u) _ _ (u+1) = _
      rw [hmono0]
      rfl

theorem q4RowStep_frame (cfg : Cfg2) (ssrc : Arr3) (k : Option ℚ) (n g : ℕ) (mux muy : ℚ) :
    ∀ i ψ w x y z, (w ≠ i ∨ y ≠ n ∨ z ≠ g) →
      q4RowStep cfg ssrc k n g mux muy i ψ w x y z = ψ w x y z := by
  intro i ψ w x y z h
  exact (colLoop_spec cfg ssrc k (i+1) i i n g mux muy (by omega) (fun u => cfg.ny - 1 - u)
    cfg.ny 0 ψ (cfg.gS ψ i n g)).1 w x y z (by tauto)

/-- C2 characterization, quadrant 4 (sweep from the bottom right): the east
faces hold the east-accessor seed; columns are processed right to left, cells
bottom-up, with the claimed relations reading psi_in_x at the already-final
face i+1 and the y carry seeded from the south accessor. -/
theorem q4Pass_spec (cfg : Cfg2) (ssrc : Arr3) (k : Option ℚ) (g n : ℕ) (ψ0 : Psi2) :
    (∀ j, j < cfg.ny → q4Pass cfg ssrc k g n ψ0 cfg.nx j n g = cfg.gE ψ0 j n g)
    ∧ ∀ i, i < cfg.nx → ∃ Y : ℕ → ℚ,
      Y 0 = cfg.gS (q4Upto cfg ssrc k g n (cfg.nx - 1 - i) ψ0) i n g
      ∧ ∀ u, u < cfg.ny →
        (q4Pass cfg ssrc k g n ψ0 i (cfg.ny - 1 - u) n g
          = 2 * ddBar cfg ssrc k i (cfg.ny - 1 - u) g
              |cfg.muxs (n - 3*cfg.npq)| |cfg.muys (n - 3*cfg.npq)|
              (q4Pass cfg ssrc k g n ψ0 (i+1) (cfg.ny - 1 - u) n g) (Y u)
            - q4Pass cfg ssrc k g n ψ0 (i+1) (cfg.ny - 1 - u) n g)
        ∧ (Y (u+1)
          = 2 * ddBar cfg ssrc k i (cfg.ny - 1 - u) g
              |cfg.muxs (n - 3*cfg.npq)| |cfg.muys (n - 3*cfg.npq)|
              (q4Pass cfg ssrc k g n ψ0 (i+1) (cfg.ny - 1 - u) n g) (Y u)
            - Y u) := by
  have hframe := q4RowStep_frame cfg ssrc k n g
    |cfg.muxs (n - 3*cfg.npq)| |cfg.muys (n - 3*cfg.npq)|
  have hmono : ∀ t t', t ≤ t' → t' ≤ cfg.nx → ∀ w x y z, (y ≠ n ∨ z ≠ g ∨ cfg.nx - t ≤ w) →
      q4Upto cfg ssrc k g n t' ψ0 w x y z = q4Upto cfg ssrc k g n t ψ0 w x y z := by
    intro t t' h1 h2 w x y z hc
    obtain ⟨d, hd⟩ : ∃ d, t' = t + d := ⟨t' - t, by omega⟩
    subst hd
    unfold q4Upto
    exact descUpto_mono
      (q4RowStep cfg ssrc k n g |cfg.muxs (n - 3*cfg.npq)| |cfg.muys (n - 3*cfg.npq)|)
      cfg.nx n g hframe d t (by omega) _ w x y z hc
  constructor
  · intro j hj
    have h0 : q4Pass cfg ssrc k g n ψ0 cfg.nx j n g = q4Upto cfg ssrc k g n 0 ψ0 cfg.nx j n g :=
      hmono 0 cfg.nx (by omega) (by omega) cfg.nx j n g (Or.inr (Or.inr (by omega)))
    rw [h0]
    show seedFace cfg.nx cfg.ny n g (fun j => cfg.gE ψ0 j n g) ψ0 cfg.nx j n g = _
    unfold seedFace
    rw [if_pos ⟨rfl, hj, rfl, rfl⟩]
  · intro i hi
    refine ⟨colY cfg ssrc k (i+1) i n g
      |cfg.muxs (n - 3*cfg.npq)| |cfg.muys (n - 3*cfg.npq)| (fun u => cfg.ny - 1 - u)
      (q4Upto cfg ssrc k g n (cfg.nx - 1 - i) ψ0)
      (cfg.gS (q4Upto cfg ssrc k g n (cfg.nx - 1 - i) ψ0) i n g), rfl, ?_⟩
    intro u hu
    have hstep : q4Upto cfg ssrc k g n ((cfg.nx - 1 - i) + 1) ψ0
        = q4RowStep cfg ssrc k n g
            |cfg.muxs (n - 3*cfg.npq)| |cfg.muys (n - 3*cfg.npq)| i
            (q4Upto cfg ssrc k g n (cfg.nx - 1 - i) ψ0) := by
      unfold q4Upto
      rw [loopN_succ_right]
      simp only [Nat.zero_add]
      rw [show cfg.nx - 1 - (cfg.nx - 1 - i) = i by omega]
    obtain ⟨hcF, hcW, hcC⟩ := colLoop_spec cfg ssrc k (i+1) i i n g
      |cfg.muxs (n - 3*cfg.npq)| |cfg.muys (n - 3*cfg.npq)| (by omega)
      (fun u => cfg.ny - 1 - u) cfg.ny 0
      (q4Upto cfg ssrc k g n (cfg.nx - 1 - i) ψ0)
      (cfg.gS (q4Upto cfg ssrc k g n (cfg.nx - 1 - i) ψ0) i n g)
    have hwrite := hcW u hu (fun t' h1 h2 => by omega)
    simp only [Nat.zero_add] at hwrite
    have hmono1 : q4Pass cfg ssrc k g n ψ0 i (cfg.ny - 1 - u) n g
        = q4Upto cfg ssrc k g n ((cfg.nx - 1 - i) + 1) ψ0 i (cfg.ny - 1 - u) n g :=
      hmono ((cfg.nx - 1 - i) + 1) cfg.nx (by omega) (by omega) i (cfg.ny - 1 - u) n g
        (Or.inr (Or.inr (by omega)))
    have hmono0 : q4Pass cfg ssrc k g n ψ0 (i+1) (cfg.ny - 1 - u) n g
        = q4Upto cfg ssrc k g n (cfg.nx - 1 - i) ψ0 (i+1) (cfg.ny - 1 - u) n g :=
      hmono (cfg.nx - 1 - i) cfg.nx (by omega) (by omega) (i+1) (cfg.ny - 1 - u) n g
        (Or.inr (Or.inr (by omega)))
    constructor
    · rw [hmono1, hstep, hmono0]
      exact hwrite
    · show colY cfg ssrc k (i+1) i n g _ _ (fun u => cfg.ny - 1 - u) _ _ (u+1) = _
      rw [hmono0]
      rfl

/-- C2 (confirmed): in the 2-D transport sweep, for every quadrant pass,
direction, group and cell, the cell-average flux satisfies
psi_bar = (q + xcoeff psi_in_x + ycoeff psi_in_y) / (sigma_tr + xcoeff +
ycoeff) with xcoeff = 2 |mux| / dx and ycoeff = 2 |muy| / dy (ddBar), and both
outgoing face fluxes are psi_out = 2 psi_bar - psi_in; each of the four
passes traverses the mesh so that both incoming values are available when a
cell is visited: the incoming x-face value is the already-final value at the
upwind face (seeded from the boundary accessor at face 0 or nx), and the
incoming y value is the carried sequence Y seeded from the north or south
accessor and propagated cell to cell in traversal order. -/
theorem transport_sweep2d_quadrant_recurrences
    (cfg : Cfg2) (ssrc : Arr3) (k : Option ℚ) (g n : ℕ) (ψ0 : Psi2) :
    ((∀ j, j < cfg.ny → q1Pass cfg ssrc k g n ψ0 0 j n g = cfg.gW ψ0 j n g)
    ∧ ∀ i, i < cfg.nx → ∃ Y : ℕ → ℚ,
      Y 0 = cfg.gN (q1Upto cfg ssrc k g n i ψ0) i n g
      ∧ ∀ j, j < cfg.ny →
        (q1Pass cfg ssrc k g n ψ0 (i+1) j n g
          = 2 * ddBar cfg ssrc k i j g |cfg.muxs n| |cfg.muys n|
              (q1Pass cfg ssrc k g n ψ0 i j n g) (Y j)
            - q1Pass cfg ssrc k g n ψ0 i j n g)
        ∧ (Y (j+1)
          = 2 * ddBar cfg ssrc k i j g |cfg.muxs n| |cfg.muys n|
              (q1Pass cfg ssrc k g n ψ0 i j n g) (Y j)
            - Y j))
    ∧ ((∀ j, j < cfg.ny → q2Pass cfg ssrc k g n ψ0 cfg.nx j n g = cfg.gE ψ0 j n g)
    ∧ ∀ i, i < cfg.nx → ∃ Y : ℕ → ℚ,
      Y 0 = cfg.gN (q2Upto cfg ssrc k g n (cfg.nx - 1 - i) ψ0) i n g
      ∧ ∀ j, j < cfg.ny →
        (q2Pass cfg ssrc k g n ψ0 i j n g
          = 2 * ddBar cfg ssrc k i j g |cfg.muxs (n - 2*cfg.npq)| |cfg.muys (n - 2*cfg.npq)|
              (q2Pass cfg ssrc k g n ψ0 (i+1) j n g) (Y j)
            - q2Pass cfg ssrc k g n ψ0 (i+1) j n g)
        ∧ (Y (j+1)
          = 2 * ddBar cfg ssrc k i j g |cfg.muxs (n - 2*cfg.npq)| |cfg.muys (n - 2*cfg.npq)|
              (q2Pass cfg ssrc k g n ψ0 (i+1) j n g) (Y j)
            - Y j))
    ∧ ((∀ j, j < cfg.ny → q3Pass cfg ssrc k g n ψ0 0 j n g = cfg.gW ψ0 j n g)
    ∧ ∀ i, i < cfg.nx → ∃ Y : ℕ → ℚ,
      Y 0 = cfg.gS (q3Upto cfg ssrc k g n i ψ0) i n g
      ∧ ∀ u, u < cfg.ny →
        (q3Pass cfg ssrc k g n ψ0 (i+1) (cfg.ny - 1 - u) n g
          = 2 * ddBar cfg ssrc k i (cfg.ny - 1 - u) g
              |cfg.muxs (n - cfg.npq)| |cfg.muys (n - cfg.npq)|
              (q3Pass cfg ssrc k g n ψ0 i (cfg.ny - 1 - u) n g) (Y u)
            - q3Pass cfg ssrc k g n ψ0 i (cfg.ny - 1 - u) n g)
        ∧ (Y (u+1)
          = 2 * ddBar cfg ssrc k i (cfg.ny - 1 - u) g
              |cfg.muxs (n - cfg.npq)| |cfg.muys (n - cfg.npq)|
              (q3Pass cfg ssrc k g n ψ0 i (cfg.ny - 1 - u) n g) (Y u)
            - Y u))
    ∧ ((∀ j, j < cfg.ny → q4Pass cfg ssrc k g n ψ0 cfg.nx j n g = cfg.gE ψ0 j n g)
    ∧ ∀ i, i < cfg.nx → ∃ Y : ℕ → ℚ,
      Y 0 = cfg.gS (q4Upto cfg ssrc k g n (cfg.nx - 1 - i) ψ0) i n g
      ∧ ∀ u, u < cfg.ny →
        (q4Pass cfg ssrc k g n ψ0 i (cfg.ny - 1 - u) n g
          = 2 * ddBar cfg ssrc k i (cfg.ny - 1 - u) g
              |cfg.muxs (n - 3*cfg.npq)| |cfg.muys (n - 3*cfg.npq)|
              (q4Pass cfg ssrc k g n ψ0 (i+1) (cfg.ny - 1 - u) n g) (Y u)
            - q4Pass cfg ssrc k g n ψ0 (i+1) (cfg.ny - 1 - u) n g)
        ∧ (Y (u+1)
          = 2 * ddBar cfg ssrc k i (cfg.ny - 1 - u) g
              |cfg.muxs (n - 3*cfg.npq)| |cfg.muys (n - 3*cfg.npq)|
              (q4Pass cfg ssrc k g n ψ0 (i+1) (cfg.ny - 1 - u) n g) (Y u)
            - Y u)) :=
  ⟨q1Pass_spec cfg ssrc k g n ψ0, q2Pass_spec cfg ssrc k g n ψ0,
    q3Pass_spec cfg ssrc k g n ψ0, q4Pass_spec cfg ssrc k g n ψ0⟩

/-- C2 witness: the quadrant characterization instantiated on the concrete
one-cell 2-D problem, direction 0, group 0, all-zero initial angular flux. -/
theorem transport_sweep2d_quadrant_recurrences_witness :
    (∀ j, j < cfg2Triv.ny →
      q1Pass cfg2Triv zeroArr3 (some 1) 0 0 zeroPsi2 0 j 0 0 = cfg2Triv.gW zeroPsi2 j 0 0)
    ∧ (∀ i, i < cfg2Triv.nx → ∃ Y : ℕ → ℚ,
      Y 0 = cfg2Triv.gN (q1Upto cfg2Triv zeroArr3 (some 1) 0 0 i zeroPsi2) i 0 0
      ∧ ∀ j, j < cfg2Triv.ny →
        (q1Pass cfg2Triv zeroArr3 (some 1) 0 0 zeroPsi2 (i+1) j 0 0
          = 2 * ddBar cfg2Triv zeroArr3 (some 1) i j 0 |cfg2Triv.muxs 0| |cfg2Triv.muys 0|
              (q1Pass cfg2Triv zeroArr3 (some 1) 0 0 zeroPsi2 i j 0 0) (Y j)
            - q1Pass cfg2Triv zeroArr3 (some 1) 0 0 zeroPsi2 i j 0 0)
        ∧ (Y (j+1)
          = 2 * ddBar cfg2Triv zeroArr3 (some 1) i j 0 |cfg2Triv.muxs 0| |cfg2Triv.muys 0|
              (q1Pass cfg2Triv zeroArr3 (some 1) 0 0 zeroPsi2 i j 0 0) (Y j)
            - Y j)) :=
  (transport_sweep2d_quadrant_recurrences cfg2Triv zeroArr3 (some 1) 0 0 zeroPsi2).1

end SNeq
